import Mathlib

/-!
Verification development for the tt-connect unified brokerage client.

This file gives a shallow embedding, in Lean 4, of the parts of the
library that the specification's testable claims are about:

* the canonical instrument model and enums (`tt_connect/enums.py`,
  `tt_connect/instruments.py`);
* the capability gate and `place_order` flow (`tt_connect/capabilities.py`,
  `tt_connect/client.py`);
* session expiry and cached-login adoption (`tt_connect/auth/base.py`);
* the streaming reconnect-backoff loop and the binary tick decoder
  (`tt_connect/ws/angelone.py`);
* the instrument-master parsers (`tt_connect/adapters/angelone/parser.py`,
  `tt_connect/adapters/zerodha/parser.py`);
* the instrument store refresh/staleness logic and the resolver joins
  (`tt_connect/instrument_manager/manager.py`, `resolver.py`, `db.py`);
* the shared HTTP retry loop (`tt_connect/adapters/base.py`).

Modelling conventions:

* Python `datetime.date` / `datetime.datetime` values are modelled as a
  concrete `Date` record (calendar date) or as integer timestamps where
  only ordering matters; `date.today()` becomes an explicit `today`
  parameter.
* Monetary floats are modelled as exact decimals (`Dec`); the binary tick decoder keeps
  prices in integer paise (the wire unit) rather than performing the
  display division by `100.0`.
* The SQLite store is modelled relationally as lists of typed rows.  The
  logical schema is taken from the INSERT/SELECT statements actually
  executed by `manager.py` and `resolver.py` (which include the
  `segment` column, the `broker_symbol` column and the `_meta` table;
  the DDL string in `db.py` lags behind those statements).
* The commit boundaries of a refresh follow the `commit()` calls in
  `truncate_all`, `_insert` and `_set_last_updated`: the sequence of
  committed snapshots is modelled explicitly so that interruption
  between commits can be reasoned about.
-/

namespace TTC

/-- Exchange enum (`enums.py: Exchange`). -/
inductive Exchange
  | NSE
  | BSE
  | NFO
  | BFO
  | CDS
  | MCX
deriving DecidableEq, Repr

/-- Option side enum (`enums.py: OptionType`). -/
inductive OptionTy
  | CE
  | PE
deriving DecidableEq, Repr

/-- Product type enum (`enums.py: ProductType`). -/
inductive ProductTy
  | CNC
  | MIS
  | NRML
deriving DecidableEq, Repr

/-- Order type enum (`enums.py: OrderType`). -/
inductive OrderTy
  | MARKET
  | LIMIT
  | SL
  | SL_M
deriving DecidableEq, Repr

/-- Calendar date, standing in for Python `datetime.date`. -/
structure Date where
  year : Nat
  month : Nat
  day : Nat
deriving DecidableEq, Repr

/-! String and numeric primitives.  Python string/number operations are
re-implemented structurally over character lists so that every
definition evaluates by kernel reduction on concrete inputs (the
standard-library `String` operations and `Rat` arithmetic are
position/`WellFounded`-based and do not). -/

/-- Python whitespace characters recognized by `str.strip()` (the ASCII
subset, the only ones arising in the vendor dumps). -/
def isPySpaceChar (c : Char) : Bool :=
  c = ' ' ∨ c = Char.ofNat 9 ∨ c = Char.ofNat 10 ∨ c = Char.ofNat 11 ∨
    c = Char.ofNat 12 ∨ c = Char.ofNat 13

/-- Python `str.strip()`. -/
def pyTrim (s : String) : String :=
  String.mk (((s.toList.dropWhile isPySpaceChar).reverse.dropWhile
    isPySpaceChar).reverse)

/-- Python `str.endswith(suffix)`. -/
def pyEndsWith (s suffix : String) : Bool :=
  suffix.toList.reverse.isPrefixOf s.toList.reverse

/-- Python `str.removesuffix(suffix)`. -/
def pyRemoveSuffix (s suffix : String) : String :=
  if pyEndsWith s suffix then
    String.mk (s.toList.take (s.toList.length - suffix.toList.length))
  else s

/-- Python `s[-n:]` for a nonnegative `n`: the last `n` characters. -/
def pyTakeRight (s : String) (n : Nat) : String :=
  String.mk ((s.toList.reverse.take n).reverse)

/-- Python `str.upper()` on the ASCII letters the dumps contain. -/
def pyToUpper (s : String) : String :=
  String.mk (s.toList.map (fun c =>
    if 97 ≤ c.toNat ∧ c.toNat ≤ 122 then Char.ofNat (c.toNat - 32) else c))

/-- Digit-sequence value: `some n` iff the characters are a nonempty
run of decimal digits. -/
def digitsToNat : List Char → Option Nat
  | [] => none
  | cs => go cs 0
where
  go : List Char → Nat → Option Nat
    | [], acc => some acc
    | c :: rest, acc =>
      if 48 ≤ c.toNat ∧ c.toNat ≤ 57 then go rest (acc * 10 + (c.toNat - 48))
      else none

/-- Split a character list on a separator character (`str.split(sep)`
for a single-character separator). -/
def splitOnChar (sep : Char) (cs : List Char) : List (List Char) :=
  go cs []
where
  go : List Char → List Char → List (List Char)
    | [], cur => [cur.reverse]
    | c :: rest, cur =>
      if c = sep then cur.reverse :: go rest [] else go rest (c :: cur)

/-- Exact decimal number (value `num / den`, `den` a positive power of
ten by construction).  Stands in for Python floats/SQLite REAL values;
the dumps carry short decimals these represent exactly. -/
structure Dec where
  num : Int
  den : Nat
deriving DecidableEq, Repr

/-- Decimal from an integer. -/
def Dec.ofInt (n : Int) : Dec := ⟨n, 1⟩

/-- Exact division of a decimal by a positive natural (used for the
paise → rupee strike normalization ÷100). -/
def Dec.divNat (a : Dec) (k : Nat) : Dec := ⟨a.num, a.den * k⟩

/-- Numeric value equality of decimals (cross multiplication), the
comparison SQLite applies to REAL columns and Python to floats. -/
def Dec.eqv (a b : Dec) : Bool := a.num * (b.den : Int) = b.num * (a.den : Int)

/-- Negation of a decimal. -/
def Dec.neg (a : Dec) : Dec := ⟨-a.num, a.den⟩

/-- Render a natural as decimal digits, left-padded with zeros to
`width` (structural; `fuel` bounds the digit count). -/
def natDigitsPadded (width : Nat) (n : Nat) : List Char :=
  let digits := go 8 n
  List.replicate (width - digits.length) (Char.ofNat 48) ++ digits
where
  go : Nat → Nat → List Char
    | 0, _ => []
    | fuel + 1, m =>
      if m = 0 then []
      else go fuel (m / 10) ++ [Char.ofNat (48 + m % 10)]

/-- Render a `Date` as the ISO `YYYY-MM-DD` string (`date.isoformat()`);
a zero component renders as all zeros like Python would never produce
(dates here are parsed with positive components). -/
def Date.iso (d : Date) : String :=
  String.mk (natDigitsPadded 4 d.year ++ [Char.ofNat 45] ++
    natDigitsPadded 2 d.month ++ [Char.ofNat 45] ++ natDigitsPadded 2 d.day)

/-- Canonical instrument variants (`instruments.py`).  `Index`, `Equity`,
`Currency` and `Commodity` carry (exchange, symbol); `Future` adds an
expiry; `Option` adds expiry, strike and option side. -/
inductive Instrument
  | index (exchange : Exchange) (symbol : String)
  | equity (exchange : Exchange) (symbol : String)
  | future (exchange : Exchange) (symbol : String) (expiry : Date)
  | option (exchange : Exchange) (symbol : String) (expiry : Date)
      (strike : Dec) (option_type : OptionTy)
  | currency (exchange : Exchange) (symbol : String)
  | commodity (exchange : Exchange) (symbol : String)
deriving DecidableEq, Repr

/-- Exchange of any instrument variant (`Instrument.exchange` field). -/
def Instrument.exchange : Instrument → Exchange
  | .index ex _ => ex
  | .equity ex _ => ex
  | .future ex _ _ => ex
  | .option ex _ _ _ _ => ex
  | .currency ex _ => ex
  | .commodity ex _ => ex

/-- Test for the `Index` variant (`isinstance(instrument, Index)`). -/
def Instrument.isIndex : Instrument → Bool
  | .index _ _ => true
  | _ => false

/-- Broker capability matrix (`capabilities.py: Capabilities`). -/
structure Capabilities where
  broker_id : String
  segments : List Exchange
  order_types : List OrderTy
  product_types : List ProductTy
deriving Repr

/-- The distinct `UnsupportedFeatureError` raised by `Capabilities.verify`,
labelled by which check failed. -/
inductive VerifyFail
  | indexNotTradeable
  | segmentUnsupported
  | orderTypeUnsupported
  | productTypeUnsupported
deriving DecidableEq, Repr

/-- Embedding of `Capabilities.verify` (`capabilities.py` lines 15-36).
Checks run in source order: Index rejection, then segment, then order
type, then product type; `none` means the verification passed. -/
def Capabilities.verify (caps : Capabilities) (instrument : Instrument)
    (order_type : OrderTy) (product_type : ProductTy) : Option VerifyFail :=
  if instrument.isIndex then
    some .indexNotTradeable
  else if ¬ (instrument.exchange ∈ caps.segments) then
    some .segmentUnsupported
  else if ¬ (order_type ∈ caps.order_types) then
    some .orderTypeUnsupported
  else if ¬ (product_type ∈ caps.product_types) then
    some .productTypeUnsupported
  else
    none

/-- Resolver output (`resolver.py: ResolvedInstrument`). -/
structure ResolvedInstrument where
  token : String
  broker_symbol : String
  exchange : String
deriving DecidableEq, Repr

/-- Observable effects of `AsyncTTConnect.place_order`, in execution
order: the capability check, the resolver query, and the outbound HTTP
order request. -/
inductive ClientAction
  | capVerify
  | resolveQuery
  | httpPlaceOrder
deriving DecidableEq, Repr

/-- Failure outcomes of `place_order`. -/
inductive PlaceFail
  | unsupported (f : VerifyFail)
  | instrumentNotFound
deriving DecidableEq, Repr

/-- Embedding of `AsyncTTConnect.place_order` (`client.py` lines 86-115).
The resolver lookup and the broker HTTP response are passed in as data
(`resolveRes`, `httpOrderId`); the returned trace lists the effects the
call performed, in order.  The capability check is the first statement
of the method; resolution happens next; the HTTP request is issued only
after both succeed. -/
def placeOrder (caps : Capabilities) (instrument : Instrument)
    (order_type : OrderTy) (product_type : ProductTy)
    (resolveRes : Except Unit ResolvedInstrument) (httpOrderId : String) :
    Except PlaceFail String × List ClientAction :=
  match caps.verify instrument order_type product_type with
  | some f => (.error (.unsupported f), [.capVerify])
  | none =>
    match resolveRes with
    | .error _ => (.error .instrumentNotFound, [.capVerify, .resolveQuery])
    | .ok _ =>
      (.ok httpOrderId, [.capVerify, .resolveQuery, .httpPlaceOrder])

/-- Session state (`auth/base.py: SessionData`); datetimes are integer
timestamps, `expires_at` optional exactly as in the dataclass. -/
structure SessionData where
  access_token : String
  refresh_token : Option String := none
  feed_token : Option String := none
  obtained_at : Int := 0
  expires_at : Option Int := none
deriving DecidableEq, Repr

/-- Embedding of `SessionData.is_expired` (`auth/base.py` lines 52-55):
`None` expiry is never expired; otherwise expired when `now >=
expires_at`. -/
def SessionData.is_expired (s : SessionData) (now : Int) : Bool :=
  match s.expires_at with
  | none => false
  | some e => decide (e ≤ now)

/-- Which path `BaseAuth.login` takes. -/
inductive LoginPath
  | adoptCached
  | credentialFlow
deriving DecidableEq, Repr

/-- Embedding of the cache-consultation step of `BaseAuth.login`
(`auth/base.py` lines 117-132): a cached, unexpired session is adopted
and no credential flow runs; otherwise the mode's login flow runs. -/
def loginPath (cached : Option SessionData) (now : Int) : LoginPath :=
  match cached with
  | some s => if s.is_expired now then .credentialFlow else .adoptCached
  | none => .credentialFlow

/-- Reconnect ceiling (`AngelOneWebSocket.MAX_RECONNECT_DELAY`). -/
def maxReconnectDelay : Nat := 60

/-- Initial reconnect delay (`self._reconnect_delay = 2.0`). -/
def initialReconnectDelay : Nat := 2

/-- One iteration of the `_run` reconnect loop (`ws/angelone.py` lines
139-153) after a session ends.  `clean` is true when `_connect_and_run`
returned without raising (the delay is reset to 2 before sleeping);
the loop then sleeps the current delay and doubles it, capped at 60.
Returns `(sleep used before the next connection attempt, next stored
delay)`. -/
def reconnectStep (delay : Nat) (clean : Bool) : Nat × Nat :=
  let d := if clean then initialReconnectDelay else delay
  (d, min (d * 2) maxReconnectDelay)

/-- Stored delay after a sequence of session outcomes, starting from
`delay` (true = session ended cleanly, false = session raised). -/
def reconnectFold (delay : Nat) (outcomes : List Bool) : Nat :=
  outcomes.foldl (fun d c => (reconnectStep d c).2) delay

/-- Sleeps performed before each reconnection attempt, for a sequence of
session outcomes starting from stored delay `delay`. -/
def reconnectSleeps (delay : Nat) : List Bool → List Nat
  | [] => []
  | c :: rest =>
    (reconnectStep delay c).1 :: reconnectSleeps (reconnectStep delay c).2 rest

/-- Python `int(s)` on a decimal string: optional sign, digits.  `none`
models the `ValueError` raised on malformed input. -/
def pyInt (s : String) : Option Int :=
  match (pyTrim s).toList with
  | '-' :: rest => (digitsToNat rest).map (fun n => -(n : Int))
  | '+' :: rest => (digitsToNat rest).map (fun n => (n : Int))
  | cs => (digitsToNat cs).map (fun n => (n : Int))

/-- Python `float(s)` on plain decimal notation (optional sign, integer
part, optional fractional part), the only forms the instrument masters
use.  `none` models the `ValueError` raised on malformed input. -/
def pyFloat (s : String) : Option Dec :=
  let signed : Bool × List Char :=
    match (pyTrim s).toList with
    | '-' :: rest => (true, rest)
    | '+' :: rest => (false, rest)
    | cs => (false, cs)
  let build : Option Dec :=
    match splitOnChar '.' signed.2 with
    | [a] => (digitsToNat a).map (fun n => Dec.ofInt (n : Int))
    | [a, b] =>
      if a.isEmpty && b.isEmpty then none
      else
        match (if a.isEmpty then some 0 else digitsToNat a),
              (if b.isEmpty then some 0 else digitsToNat b) with
        | some ia, some ib =>
          some ⟨(ia : Int) * (10 ^ b.length : Nat) + (ib : Int), 10 ^ b.length⟩
        | _, _ => none
    | _ => none
  build.map (fun d => if signed.1 then d.neg else d)

/-- Month-abbreviation table used by `strptime`'s `%b` directive
(matched case-insensitively). -/
def monthNum (s : String) : Option Nat :=
  match pyToUpper s with
  | "JAN" => some 1
  | "FEB" => some 2
  | "MAR" => some 3
  | "APR" => some 4
  | "MAY" => some 5
  | "JUN" => some 6
  | "JUL" => some 7
  | "AUG" => some 8
  | "SEP" => some 9
  | "OCT" => some 10
  | "NOV" => some 11
  | "DEC" => some 12
  | _ => none

/-- AngelOne expiry parser `_parse_expiry` (`%d%b%Y`, e.g. `27JUN2028`);
`none` models the `ValueError` raised on malformed input. -/
def parseExpiryDDMMMYYYY (raw : String) : Option Date :=
  let t := (pyTrim raw).toList
  if t.length = 9 then
    match digitsToNat (t.take 2), monthNum (String.mk ((t.drop 2).take 3)),
        digitsToNat (t.drop 5) with
    | some d, some m, some y =>
      if 1 ≤ d ∧ d ≤ 31 then some ⟨y, m, d⟩ else none
    | _, _, _ => none
  else none

/-- Zerodha expiry parser: `date.fromisoformat` on `YYYY-MM-DD`. -/
def parseISODate (raw : String) : Option Date :=
  match splitOnChar '-' raw.toList with
  | [y, m, d] =>
    if y.length = 4 ∧ m.length = 2 ∧ d.length = 2 then
      match digitsToNat y, digitsToNat m, digitsToNat d with
      | some yn, some mn, some dn =>
        if 1 ≤ mn ∧ mn ≤ 12 ∧ 1 ≤ dn ∧ dn ≤ 31 then some ⟨yn, mn, dn⟩ else none
      | _, _, _ => none
    else none
  | _ => none

/-- Parsed index row (shape shared by both vendor parsers). -/
structure ParsedIndex where
  exchange : String
  symbol : String
  broker_symbol : String
  segment : String
  name : Option String
  lot_size : Int
  tick_size : Dec
  broker_token : String
deriving DecidableEq, Repr

/-- Parsed equity row (shape shared by both vendor parsers). -/
structure ParsedEquity where
  exchange : String
  symbol : String
  broker_symbol : String
  segment : String
  name : Option String
  lot_size : Int
  tick_size : Dec
  broker_token : String
deriving DecidableEq, Repr

/-- Parsed futures row (shape shared by both vendor parsers). -/
structure ParsedFuture where
  exchange : String
  symbol : String
  broker_symbol : String
  segment : String
  lot_size : Int
  tick_size : Dec
  broker_token : String
  expiry : Date
  underlying_exchange : String
deriving DecidableEq, Repr

/-- Parsed options row (shape shared by both vendor parsers). -/
structure ParsedOption where
  exchange : String
  symbol : String
  broker_symbol : String
  segment : String
  lot_size : Int
  tick_size : Dec
  broker_token : String
  expiry : Date
  strike : Dec
  option_type : String
  underlying_exchange : String
deriving DecidableEq, Repr

/-- Container for all parsed instrument groups (`ParsedInstruments`). -/
structure ParsedInstruments where
  indices : List ParsedIndex := []
  equities : List ParsedEquity := []
  futures : List ParsedFuture := []
  options : List ParsedOption := []
deriving DecidableEq, Repr

/-- One AngelOne master row (dict from the JSON dump).  `row.get(key)`
returning `None`/a missing key is modelled as the empty string, which
the source treats identically through `row.get(...) or default`. -/
structure ARow where
  token : String
  symbol : String
  name : String
  expiry : String
  strike : String
  lotsize : String
  instrumenttype : String
  exch_seg : String
  tick_size : String
deriving DecidableEq, Repr

/-- Static map derivative exchange → underlying cash exchange
(`_UNDERLYING_EXCHANGE`); `none` models the `KeyError` on other keys. -/
def underlyingExchangeOf : String → Option String
  | "NFO" => some "NSE"
  | "BFO" => some "BSE"
  | _ => none

/-- Suffixes identifying non-equity NSE/BSE rows
(`_NON_EQUITY_SUFFIXES`). -/
def nonEquitySuffixes : List String :=
  ["-GS", "-MF", "-SG", "-SM", "-IL", "-BL", "-CB", "-TB"]

/-- Embedding of `_is_plain_equity` (`angelone/parser.py`). -/
def angelIsPlainEquity (row : ARow) : Bool :=
  let symbol := pyTrim row.symbol
  ¬ nonEquitySuffixes.any (fun sfx => pyEndsWith symbol sfx)

/-- Embedding of AngelOne `_parse_index`; `none` models an exception
from `int`/`float` conversion. -/
def angelParseIndex (row : ARow) : Option ParsedIndex :=
  let canonical := pyTrim row.name
  match (if row.lotsize = "" then some (1 : Int) else pyInt row.lotsize),
        (if row.tick_size = "" then some (Dec.ofInt 0) else pyFloat row.tick_size) with
  | some lot, some tick =>
    some
      { exchange := pyTrim row.exch_seg
        symbol := canonical
        broker_symbol := pyTrim row.symbol
        segment := "INDICES"
        name := if canonical = "" then none else some canonical
        lot_size := lot
        tick_size := tick
        broker_token := pyTrim row.token }
  | _, _ => none

/-- Embedding of AngelOne `_parse_equity`. -/
def angelParseEquity (row : ARow) : Option ParsedEquity :=
  let broker_sym := pyTrim row.symbol
  let canonical := pyRemoveSuffix broker_sym "-EQ"
  match (if row.lotsize = "" then some (1 : Int) else pyInt row.lotsize),
        (if row.tick_size = "" then some (⟨5, 100⟩ : Dec) else pyFloat row.tick_size) with
  | some lot, some tick =>
    some
      { exchange := pyTrim row.exch_seg
        symbol := canonical
        broker_symbol := broker_sym
        segment := pyTrim row.exch_seg
        name := if pyTrim row.name = "" then none else some (pyTrim row.name)
        lot_size := lot
        tick_size := tick
        broker_token := pyTrim row.token }
  | _, _ => none

/-- Embedding of AngelOne `_parse_future`. -/
def angelParseFuture (row : ARow) : Option ParsedFuture :=
  let exch_seg := pyTrim row.exch_seg
  match (if row.lotsize = "" then some (1 : Int) else pyInt row.lotsize),
        (if row.tick_size = "" then some (⟨5, 100⟩ : Dec) else pyFloat row.tick_size),
        parseExpiryDDMMMYYYY row.expiry,
        underlyingExchangeOf exch_seg with
  | some lot, some tick, some expiry, some uex =>
    some
      { exchange := exch_seg
        symbol := pyTrim row.name
        broker_symbol := pyTrim row.symbol
        segment := exch_seg ++ "-FUT"
        lot_size := lot
        tick_size := tick
        broker_token := pyTrim row.token
        expiry := expiry
        underlying_exchange := uex }
  | _, _, _, _ => none

/-- Embedding of AngelOne `_parse_option`: strike comes from the source
field divided by 100 (AngelOne stores strike × 100); the option side is
the last two characters of the broker symbol. -/
def angelParseOption (row : ARow) : Option ParsedOption :=
  let exch_seg := pyTrim row.exch_seg
  let broker_sym := pyTrim row.symbol
  match (if row.lotsize = "" then some (1 : Int) else pyInt row.lotsize),
        (if row.tick_size = "" then some (⟨5, 100⟩ : Dec) else pyFloat row.tick_size),
        parseExpiryDDMMMYYYY row.expiry,
        underlyingExchangeOf exch_seg,
        (if row.strike = "" then some (Dec.ofInt 0) else pyFloat row.strike) with
  | some lot, some tick, some expiry, some uex, some rawStrike =>
    some
      { exchange := exch_seg
        symbol := pyTrim row.name
        broker_symbol := broker_sym
        segment := exch_seg ++ "-OPT"
        lot_size := lot
        tick_size := tick
        broker_token := pyTrim row.token
        expiry := expiry
        strike := rawStrike.divNat 100
        option_type := if broker_sym.toList.length ≥ 2 then pyTakeRight broker_sym 2 else ""
        underlying_exchange := uex }
  | _, _, _, _, _ => none

/-- The branch a row takes through a parser's classification chain. -/
inductive RowClass
  | idx
  | equ
  | fut
  | opt
  | skip
deriving DecidableEq, Repr

/-- Branch selection of AngelOne `parse` (`angelone/parser.py` lines
159-187): the guard chain evaluated in source order; a cash-exchange
row with empty instrument type that fails the equity-suffix filter is
skipped, as is anything out of scope. -/
def angelClassify (row : ARow) : RowClass :=
  let instrument_type := pyTrim row.instrumenttype
  let exch_seg := pyTrim row.exch_seg
  if instrument_type = "AMXIDX" ∧ exch_seg ∈ ["NSE", "BSE"] then .idx
  else if instrument_type = "" ∧ exch_seg ∈ ["NSE", "BSE"] then
    if pyEndsWith (pyTrim row.symbol) "-EQ" ∨ angelIsPlainEquity row then .equ
    else .skip
  else if instrument_type ∈ ["FUTIDX", "FUTSTK"] ∧ exch_seg ∈ ["NFO", "BFO"] then .fut
  else if instrument_type ∈ ["OPTIDX", "OPTSTK"] ∧ exch_seg ∈ ["NFO", "BFO"] then .opt
  else .skip

/-- Classification loop of AngelOne `parse` (`angelone/parser.py` lines
152-188), accumulating into the four groups in input order.  A `none`
from a per-row parser aborts the whole parse (`.error`), mirroring the
uncaught Python exception. -/
def angelParseGo (rows : List ARow) (acc : ParsedInstruments) :
    Except String ParsedInstruments :=
  match rows with
  | [] => .ok acc
  | row :: rest =>
    match angelClassify row with
    | .idx =>
      match angelParseIndex row with
      | some i => angelParseGo rest { acc with indices := acc.indices ++ [i] }
      | none => .error "index row conversion failed"
    | .equ =>
      match angelParseEquity row with
      | some e => angelParseGo rest { acc with equities := acc.equities ++ [e] }
      | none => .error "equity row conversion failed"
    | .fut =>
      match angelParseFuture row with
      | some f => angelParseGo rest { acc with futures := acc.futures ++ [f] }
      | none => .error "future row conversion failed"
    | .opt =>
      match angelParseOption row with
      | some o => angelParseGo rest { acc with options := acc.options ++ [o] }
      | none => .error "option row conversion failed"
    | .skip => angelParseGo rest acc

/-- AngelOne `parse` entry point. -/
def angelParse (rows : List ARow) : Except String ParsedInstruments :=
  angelParseGo rows {}

/-- One Zerodha master CSV row after `csv.DictReader` decoding. -/
structure ZRow where
  instrument_token : String
  exchange_token : String
  tradingsymbol : String
  name : String
  last_price : String
  expiry : String
  strike : String
  tick_size : String
  lot_size : String
  instrument_type : String
  segment : String
  exchange : String
deriving DecidableEq, Repr

/-- Reverse index-name map `_BROKER_TO_CANONICAL` (broker tradingsymbol
→ canonical), with dict-`get` passthrough for unmapped names. -/
def brokerToCanonical (bs : String) : String :=
  match bs with
  | "NIFTY 50" => "NIFTY"
  | "NIFTY BANK" => "BANKNIFTY"
  | "NIFTY MID SELECT" => "MIDCPNIFTY"
  | "NIFTY FIN SERVICE" => "FINNIFTY"
  | "NIFTY 500" => "NIFTY500"
  | "NIFTY NEXT 50" => "NIFTYNXT50"
  | "SENSEX" => "SENSEX"
  | "BANKEX" => "BANKEX"
  | "SNSX50" => "SENSEX50"
  | _ => bs

/-- Embedding of Zerodha `_parse_index`. -/
def zParseIndex (row : ZRow) : Option ParsedIndex :=
  match pyInt row.lot_size, pyFloat row.tick_size with
  | some lot, some tick =>
    some
      { exchange := row.exchange
        symbol := brokerToCanonical row.tradingsymbol
        broker_symbol := row.tradingsymbol
        segment := row.segment
        name := if row.name = "" then none else some row.name
        lot_size := lot
        tick_size := tick
        broker_token := row.instrument_token }
  | _, _ => none

/-- Embedding of Zerodha `_parse_equity`. -/
def zParseEquity (row : ZRow) : Option ParsedEquity :=
  match pyInt row.lot_size, pyFloat row.tick_size with
  | some lot, some tick =>
    some
      { exchange := row.exchange
        symbol := row.tradingsymbol
        broker_symbol := row.tradingsymbol
        segment := row.segment
        name := if row.name = "" then none else some row.name
        lot_size := lot
        tick_size := tick
        broker_token := row.instrument_token }
  | _, _ => none

/-- Embedding of Zerodha `_parse_future`. -/
def zParseFuture (row : ZRow) : Option ParsedFuture :=
  match pyInt row.lot_size, pyFloat row.tick_size,
        parseISODate row.expiry, underlyingExchangeOf row.exchange with
  | some lot, some tick, some expiry, some uex =>
    some
      { exchange := row.exchange
        symbol := row.name
        broker_symbol := row.tradingsymbol
        segment := row.segment
        lot_size := lot
        tick_size := tick
        broker_token := row.instrument_token
        expiry := expiry
        underlying_exchange := uex }
  | _, _, _, _ => none

/-- Embedding of Zerodha `_parse_option`: strike is taken verbatim from
the source `strike` column (`float(row["strike"])`, no rejection); the
option side is the `instrument_type` column (CE/PE). -/
def zParseOption (row : ZRow) : Option ParsedOption :=
  match pyInt row.lot_size, pyFloat row.tick_size,
        parseISODate row.expiry, underlyingExchangeOf row.exchange,
        pyFloat row.strike with
  | some lot, some tick, some expiry, some uex, some strike =>
    some
      { exchange := row.exchange
        symbol := row.name
        broker_symbol := row.tradingsymbol
        segment := row.segment
        lot_size := lot
        tick_size := tick
        broker_token := row.instrument_token
        expiry := expiry
        strike := strike
        option_type := row.instrument_type
        underlying_exchange := uex }
  | _, _, _, _, _ => none

/-- Branch selection of Zerodha `parse` (`zerodha/parser.py` lines
141-161): cash exchanges split on segment/instrument type; derivative
exchanges split on FUT vs CE/PE; everything else is skipped. -/
def zClassify (row : ZRow) : RowClass :=
  if row.exchange ∈ ["NSE", "BSE"] then
    if row.segment ∈ ["INDICES"] then .idx
    else if row.instrument_type ∈ ["EQ"] then .equ
    else .skip
  else if row.exchange ∈ ["NFO", "BFO"] then
    if row.instrument_type = "FUT" then .fut
    else if row.instrument_type ∈ ["CE", "PE"] then .opt
    else .skip
  else .skip

/-- Classification loop of Zerodha `parse` (`zerodha/parser.py` lines
133-162) over decoded CSV rows. -/
def zerodhaParseGo (rows : List ZRow) (acc : ParsedInstruments) :
    Except String ParsedInstruments :=
  match rows with
  | [] => .ok acc
  | row :: rest =>
    match zClassify row with
    | .idx =>
      match zParseIndex row with
      | some i => zerodhaParseGo rest { acc with indices := acc.indices ++ [i] }
      | none => .error "index row conversion failed"
    | .equ =>
      match zParseEquity row with
      | some e => zerodhaParseGo rest { acc with equities := acc.equities ++ [e] }
      | none => .error "equity row conversion failed"
    | .fut =>
      match zParseFuture row with
      | some f => zerodhaParseGo rest { acc with futures := acc.futures ++ [f] }
      | none => .error "future row conversion failed"
    | .opt =>
      match zParseOption row with
      | some o => zerodhaParseGo rest { acc with options := acc.options ++ [o] }
      | none => .error "option row conversion failed"
    | .skip => zerodhaParseGo rest acc

/-- Zerodha `parse` entry point, over rows decoded from the CSV. -/
def zerodhaParse (rows : List ZRow) : Except String ParsedInstruments :=
  zerodhaParseGo rows {}

/-- Row of the `instruments` table, with the columns written by
`manager.py` (`INSERT INTO instruments (exchange, symbol, segment,
name, lot_size, tick_size)`) plus the integer primary key. -/
structure InstRow where
  id : Nat
  exchange : String
  symbol : String
  segment : String
  name : Option String
  lot_size : Int
  tick_size : Dec
deriving DecidableEq, Repr

/-- Row of the `equities` sub-table. -/
structure EqRow where
  instrument_id : Nat
  isin : Option String
deriving DecidableEq, Repr

/-- Row of the `futures` sub-table; `expiry` is stored as the ISO string
the manager binds (`fut.expiry.isoformat()`). -/
structure FutRow where
  instrument_id : Nat
  underlying_id : Nat
  expiry : String
deriving DecidableEq, Repr

/-- Row of the `options` sub-table. -/
structure OptRow where
  instrument_id : Nat
  underlying_id : Nat
  expiry : String
  strike : Dec
  option_type : String
deriving DecidableEq, Repr

/-- Row of the `broker_tokens` table. -/
structure BTRow where
  instrument_id : Nat
  broker_id : String
  token : String
  broker_symbol : String
deriving DecidableEq, Repr

/-- A committed snapshot of the instrument store: the five data tables
plus the `_meta` key/value table.  Lists are kept in rowid (insertion)
order. -/
structure Tables where
  instruments : List InstRow := []
  equities : List EqRow := []
  futures : List FutRow := []
  options : List OptRow := []
  broker_tokens : List BTRow := []
  meta : List (String × String) := []
deriving DecidableEq, Repr

/-- Effect of `truncate_all` (`db.py` lines 61-64): DELETE FROM the five
data tables; `_meta` is not in its table list and survives. -/
def truncateData (t : Tables) : Tables :=
  { t with instruments := [], equities := [], futures := [], options := [],
           broker_tokens := [] }

/-- First `value` for a `key` in `_meta` (`SELECT value FROM _meta WHERE
key = ?`, `fetchone`). -/
def metaGet (t : Tables) (key : String) : Option String :=
  (t.meta.find? (fun kv => kv.1 = key)).map (fun kv => kv.2)

/-- Effect of `INSERT OR REPLACE INTO _meta(key, value)`. -/
def metaReplace (t : Tables) (key value : String) : Tables :=
  { t with meta := t.meta.filter (fun kv => ¬ kv.1 = key) ++ [(key, value)] }

/-- Largest instrument rowid currently present (0 when empty); SQLite
assigns `max + 1` to the next inserted row. -/
def maxInstrumentId (t : Tables) : Nat :=
  t.instruments.foldl (fun a r => max a r.id) 0

/-- One iteration of `_insert_indices`: base instrument record, an
`equities` sub-row with NULL isin, and a `broker_tokens` row. -/
def insertIndexRow (broker : String) (st : Tables × Nat) (idx : ParsedIndex) :
    Tables × Nat :=
  let t := st.1
  let nid := st.2
  ({ t with
      instruments := t.instruments ++
        [⟨nid, idx.exchange, idx.symbol, idx.segment, idx.name, idx.lot_size, idx.tick_size⟩]
      equities := t.equities ++ [⟨nid, none⟩]
      broker_tokens := t.broker_tokens ++
        [⟨nid, broker, idx.broker_token, idx.broker_symbol⟩] },
   nid + 1)

/-- `_insert_indices` over the parsed index group. -/
def insertIndices (broker : String) (st : Tables × Nat) (idxs : List ParsedIndex) :
    Tables × Nat :=
  idxs.foldl (insertIndexRow broker) st

/-- One iteration of `_insert_equities` (identical row shape to index
insertion). -/
def insertEquityRow (broker : String) (st : Tables × Nat) (eq : ParsedEquity) :
    Tables × Nat :=
  let t := st.1
  let nid := st.2
  ({ t with
      instruments := t.instruments ++
        [⟨nid, eq.exchange, eq.symbol, eq.segment, eq.name, eq.lot_size, eq.tick_size⟩]
      equities := t.equities ++ [⟨nid, none⟩]
      broker_tokens := t.broker_tokens ++
        [⟨nid, broker, eq.broker_token, eq.broker_symbol⟩] },
   nid + 1)

/-- `_insert_equities` over the parsed equity group. -/
def insertEquities (broker : String) (st : Tables × Nat) (eqs : List ParsedEquity) :
    Tables × Nat :=
  eqs.foldl (insertEquityRow broker) st

/-- Embedding of `_build_underlying_lookup`: the dict comprehension maps
each `(exchange, symbol)` to an instrument id, later rows overwriting
earlier ones, so the last matching row in rowid order wins. -/
def underlyingLookup (t : Tables) (ex sym : String) : Option Nat :=
  ((t.instruments.reverse).find? (fun r => r.exchange = ex ∧ r.symbol = sym)).map
    (fun r => r.id)

/-- One iteration of `_insert_futures`: a lookup miss is logged and
skipped (state unchanged); a hit inserts the base instrument record
(name NULL), the `futures` sub-row and a `broker_tokens` row. -/
def insertFutureRow (broker : String) (lk : String → String → Option Nat)
    (st : Tables × Nat) (fut : ParsedFuture) : Tables × Nat :=
  match lk fut.underlying_exchange fut.symbol with
  | none => st
  | some uid =>
    let t := st.1
    let nid := st.2
    ({ t with
        instruments := t.instruments ++
          [⟨nid, fut.exchange, fut.symbol, fut.segment, none, fut.lot_size, fut.tick_size⟩]
        futures := t.futures ++ [⟨nid, uid, fut.expiry.iso⟩]
        broker_tokens := t.broker_tokens ++
          [⟨nid, broker, fut.broker_token, fut.broker_symbol⟩] },
     nid + 1)

/-- One iteration of `_insert_options`, same skip-on-miss shape. -/
def insertOptionRow (broker : String) (lk : String → String → Option Nat)
    (st : Tables × Nat) (opt : ParsedOption) : Tables × Nat :=
  match lk opt.underlying_exchange opt.symbol with
  | none => st
  | some uid =>
    let t := st.1
    let nid := st.2
    ({ t with
        instruments := t.instruments ++
          [⟨nid, opt.exchange, opt.symbol, opt.segment, none, opt.lot_size, opt.tick_size⟩]
        options := t.options ++ [⟨nid, uid, opt.expiry.iso, opt.strike, opt.option_type⟩]
        broker_tokens := t.broker_tokens ++
          [⟨nid, broker, opt.broker_token, opt.broker_symbol⟩] },
     nid + 1)

/-- State after the cash chunks of `_insert` (indices then equities),
before the underlying lookup is built. -/
def tablesAfterCash (broker : String) (t0 : Tables) (p : ParsedInstruments) :
    Tables × Nat :=
  insertEquities broker
    (insertIndices broker (t0, maxInstrumentId t0 + 1) p.indices) p.equities

/-- Embedding of `InstrumentManager._insert` (`manager.py` lines 57-72):
indices, equities, then the in-memory underlying lookup, then futures
and options resolved through that one lookup. -/
def insertAll (broker : String) (t0 : Tables) (p : ParsedInstruments) : Tables :=
  let st2 := tablesAfterCash broker t0 p
  let lk := underlyingLookup st2.1
  let st3 := p.futures.foldl (insertFutureRow broker lk) st2
  let st4 := p.options.foldl (insertOptionRow broker lk) st3
  st4.1

/-- Effect of `_set_last_updated`. -/
def setLastUpdated (today : String) (t : Tables) : Tables :=
  metaReplace t "last_updated" today

/-- Committed state after a refresh that runs to completion. -/
def refreshResult (broker today : String) (pre : Tables) (p : ParsedInstruments) :
    Tables :=
  setLastUpdated today (insertAll broker (truncateData pre) p)

/-- The successive committed snapshots of the store during
`InstrumentManager.refresh`: before any commit, after `truncate_all`'s
commit, after `_insert`'s commit, and after `_set_last_updated`'s
commit.  A crash or error between two commits leaves the store at the
earlier snapshot. -/
def refreshCommits (broker today : String) (pre : Tables) (p : ParsedInstruments) :
    List Tables :=
  [pre,
   truncateData pre,
   insertAll broker (truncateData pre) p,
   refreshResult broker today pre p]

/-- Embedding of `InstrumentManager._is_stale` (`manager.py` lines
249-257): stale when `_meta.last_updated` is missing or differs from
today's local date. -/
def isStale (t : Tables) (today : String) : Bool :=
  match metaGet t "last_updated" with
  | none => true
  | some v => v ≠ today

/-- Embedding of `_has_any_data`. -/
def hasAnyData (t : Tables) : Bool := t.instruments.length > 0

/-- Stale-refresh policy enum (`enums.py: OnStale`). -/
inductive StalePolicy
  | fail
  | warn
deriving DecidableEq, Repr

/-- Outcome of `ensure_fresh`: whether the fetch function was invoked,
the resulting committed store, and whether an error propagated. -/
structure EnsureResult where
  fetchInvoked : Bool
  state : Tables
  raised : Bool
deriving DecidableEq, Repr

/-- Embedding of `InstrumentManager.ensure_fresh` (`manager.py` lines
26-46).  The fetch outcome is passed as data: `some parsed` for a
successful fetch, `none` for a fetch that raises (failure before
`truncate_all`, so the committed store is unchanged). -/
def ensureFresh (broker today : String) (policy : StalePolicy) (t : Tables)
    (fetchResult : Option ParsedInstruments) : EnsureResult :=
  if isStale t today then
    match fetchResult with
    | some parsed => ⟨true, refreshResult broker today t parsed, false⟩
    | none =>
      match policy with
      | .fail => ⟨true, t, true⟩
      | .warn => if hasAnyData t then ⟨true, t, false⟩ else ⟨true, t, true⟩
  else ⟨false, t, false⟩

/-- String value of an `Exchange` enum member (StrEnum binding). -/
def exchangeStr : Exchange → String
  | .NSE => "NSE"
  | .BSE => "BSE"
  | .NFO => "NFO"
  | .BFO => "BFO"
  | .CDS => "CDS"
  | .MCX => "MCX"

/-- String value of an `OptionType` enum member. -/
def optionTyStr : OptionTy → String
  | .CE => "CE"
  | .PE => "PE"

/-- Row set of the `_resolve_future` join (`resolver.py` lines 70-89):
derivative instruments row × futures sub-row × underlying instruments
row × broker_tokens row, filtered by the WHERE clause.  The query binds
the canonical instrument's exchange/symbol/expiry against the
underlying row. -/
def futureJoin (t : Tables) (broker ex sym expiryIso : String) :
    List (InstRow × FutRow × InstRow × BTRow) :=
  t.instruments.flatMap (fun fut =>
    (t.futures.filter (fun f => f.instrument_id = fut.id)).flatMap (fun f =>
      (t.instruments.filter (fun u => u.id = f.underlying_id)).flatMap (fun u =>
        (t.broker_tokens.filter (fun bt => bt.instrument_id = fut.id)).filterMap
          (fun bt =>
            if u.exchange = ex ∧ u.symbol = sym ∧ f.expiry = expiryIso ∧
                bt.broker_id = broker then
              some (fut, f, u, bt)
            else none))))

/-- Embedding of `_resolve_future`: first join row (fetchone), mapped to
`ResolvedInstrument` with the exchange taken from the derivative's own
instruments row (SELECT `fut.exchange`). -/
def resolveFutureQ (t : Tables) (broker : String) (ex : Exchange) (sym : String)
    (expiry : Date) : Option ResolvedInstrument :=
  (futureJoin t broker (exchangeStr ex) sym expiry.iso).head?.map
    (fun q => ⟨q.2.2.2.token, q.2.2.2.broker_symbol, q.1.exchange⟩)

/-- Row set of the `_resolve_option` join (`resolver.py` lines 91-113),
additionally matching strike and option side. -/
def optionJoin (t : Tables) (broker ex sym expiryIso : String) (strike : Dec)
    (otype : String) : List (InstRow × OptRow × InstRow × BTRow) :=
  t.instruments.flatMap (fun opt =>
    (t.options.filter (fun o => o.instrument_id = opt.id)).flatMap (fun o =>
      (t.instruments.filter (fun u => u.id = o.underlying_id)).flatMap (fun u =>
        (t.broker_tokens.filter (fun bt => bt.instrument_id = opt.id)).filterMap
          (fun bt =>
            if u.exchange = ex ∧ u.symbol = sym ∧ o.expiry = expiryIso ∧
                o.strike.eqv strike = true ∧ o.option_type = otype ∧
                bt.broker_id = broker then
              some (opt, o, u, bt)
            else none))))

/-- Embedding of `_resolve_option`. -/
def resolveOptionQ (t : Tables) (broker : String) (ex : Exchange) (sym : String)
    (expiry : Date) (strike : Dec) (otype : OptionTy) : Option ResolvedInstrument :=
  (optionJoin t broker (exchangeStr ex) sym expiry.iso strike (optionTyStr otype)).head?.map
    (fun q => ⟨q.2.2.2.token, q.2.2.2.broker_symbol, q.1.exchange⟩)

/-- Retry budget (`adapters/base.py: _MAX_RETRIES`). -/
def maxRetries : Nat := 3

/-- Sleep before retrying after attempt `a` (`_RETRY_BACKOFF * 2 **
(attempt - 1)` seconds: 1, 2, 4). -/
def retryBackoff (a : Nat) : Nat := 2 ^ (a - 1)

/-- Abstract JSON-object body as seen by `_request` (a dict). -/
abbrev RawDict : Type := List (String × String)

/-- Body outcome of `response.json()`: a JSON object, JSON that is not
an object, or undecodable non-JSON. -/
inductive BodyKind
  | jsonDict (raw : RawDict)
  | jsonNonDict
  | notJson
deriving DecidableEq

/-- One HTTP attempt's observable outcome at the transport layer. -/
inductive HttpEvent
  | timeout
  | resp (status : Nat) (body : BodyKind)
deriving DecidableEq

/-- Last transient error remembered across retries (`last_exc`). -/
inductive LastErr
  | timeoutExc
  | serverError (status : Nat)
deriving DecidableEq, Repr

/-- Canonical exception classes of `exceptions.py`.  `ttConnectError` is
the base class; every other class subclasses it (`BrokerError` is one
subclass among several, with no subclasses of its own). -/
inductive ExcClass
  | ttConnectError
  | authenticationError
  | rateLimitError
  | insufficientFundsError
  | instrumentNotFoundError
  | unsupportedFeatureError
  | brokerError
  | orderError
  | invalidOrderError
  | orderNotFoundError
deriving DecidableEq, Repr

/-- Python `isinstance(e, BrokerError)` on the class taxonomy:
`BrokerError` has no subclasses, so only `brokerError` qualifies. -/
def ExcClass.isBrokerError : ExcClass → Bool
  | .brokerError => true
  | _ => false

/-- Terminal outcome of `BrokerAdapter._request`.

* `ok` — the JSON object is returned;
* `jsonDecodeFailure` — `response.json()` raised and the JSON error is
  re-raised unchanged, whatever the HTTP status was;
* `nonObjectJson` — `raise TTConnectError(...)` for non-dict JSON;
* `business` — `raise self.transformer.parse_error(raw)`;
* `exhausted` — the final `raise TTConnectError(...) from last_exc`
  after the retry budget, with the remembered last error as cause. -/
inductive ReqOutcome (β : Type)
  | ok (raw : RawDict)
  | jsonDecodeFailure (status : Nat)
  | nonObjectJson
  | business (e : β)
  | exhausted (cause : Option LastErr)
deriving DecidableEq

/-- Exception class raised for each failing outcome (`none` when the
request succeeds or the raised error is not a `TTConnectError` at all,
as for the re-raised JSON decode error). -/
def outcomeClass {β : Type} (businessClass : β → ExcClass) :
    ReqOutcome β → Option ExcClass
  | .ok _ => none
  | .jsonDecodeFailure _ => none
  | .nonObjectJson => some .ttConnectError
  | .business e => some (businessClass e)
  | .exhausted _ => some .ttConnectError

/-- Full observable run of `_request`: terminal outcome, the
`asyncio.sleep` durations performed in order, and the number of HTTP
requests issued. -/
structure ReqRun (β : Type) where
  outcome : ReqOutcome β
  sleeps : List Nat
  attemptsMade : Nat
deriving DecidableEq

/-- Core loop of `BrokerAdapter._request` (`adapters/base.py` lines
144-183) over the remaining attempt numbers.  A timeout or a 5xx with a
JSON-object body records the error, sleeps the backoff for that attempt
(even when it was the final attempt) and continues; non-JSON bodies and
non-object JSON raise immediately; a sub-500 response either raises the
broker-declared error (`_is_error` true, not retried) or returns. -/
def requestGo {β : Type} (isErr : RawDict → Nat → Bool) (parseErr : RawDict → β)
    (ev : Nat → HttpEvent) : List Nat → Option LastErr → ReqRun β
  | [], last => ⟨.exhausted last, [], 0⟩
  | a :: rest, _last =>
    match ev a with
    | .timeout =>
      let r := requestGo isErr parseErr ev rest (some .timeoutExc)
      ⟨r.outcome, retryBackoff a :: r.sleeps, r.attemptsMade + 1⟩
    | .resp status body =>
      match body with
      | .notJson => ⟨.jsonDecodeFailure status, [], 1⟩
      | .jsonNonDict => ⟨.nonObjectJson, [], 1⟩
      | .jsonDict raw =>
        if 500 ≤ status then
          let r := requestGo isErr parseErr ev rest (some (.serverError status))
          ⟨r.outcome, retryBackoff a :: r.sleeps, r.attemptsMade + 1⟩
        else if isErr raw status then ⟨.business (parseErr raw), [], 1⟩
        else ⟨.ok raw, [], 1⟩

/-- `_request` with its `range(1, _MAX_RETRIES + 1)` attempt numbers;
`ev a` is the transport outcome of attempt `a`. -/
def request {β : Type} (isErr : RawDict → Nat → Bool) (parseErr : RawDict → β)
    (ev : Nat → HttpEvent) : ReqRun β :=
  requestGo isErr parseErr ev [1, 2, 3] none

/-- An attempt outcome the retry loop treats as transient: a transport
timeout, or a 5xx whose body decodes to a JSON object. -/
def transientEvent : HttpEvent → Bool
  | .timeout => true
  | .resp status (.jsonDict _) => 500 ≤ status
  | _ => false

/-- Remembered error corresponding to a transient attempt outcome. -/
def causeOf : HttpEvent → Option LastErr
  | .timeout => some .timeoutExc
  | .resp status _ => some (.serverError status)

/-- Byte of a packet at an index (packets are byte lists; reads are only
performed at offsets the length guards make valid). -/
def byteAt (data : List Nat) (i : Nat) : Nat := data.getD i 0

/-- Little-endian unsigned 16-bit read (`struct` format `H`). -/
def readU16LE (data : List Nat) (off : Nat) : Nat :=
  byteAt data off + 256 * byteAt data (off + 1)

/-- Little-endian unsigned 64-bit accumulation. -/
def readU64LE (data : List Nat) (off : Nat) : Nat :=
  byteAt data off +
    256 * (byteAt data (off + 1) +
      256 * (byteAt data (off + 2) +
        256 * (byteAt data (off + 3) +
          256 * (byteAt data (off + 4) +
            256 * (byteAt data (off + 5) +
              256 * (byteAt data (off + 6) +
                256 * byteAt data (off + 7)))))))

/-- Two's-complement reinterpretation of a 64-bit value (`struct`
format `q`). -/
def toI64 (n : Nat) : Int :=
  if n < 2 ^ 63 then (n : Int) else (n : Int) - 2 ^ 64

/-- Little-endian signed 64-bit read. -/
def readI64LE (data : List Nat) (off : Nat) : Int := toI64 (readU64LE data off)

/-- Subscription modes (`ws/angelone.py`). -/
def modeQuote : Nat := 2

/-- SNAP-QUOTE subscription mode. -/
def modeSnapQuote : Nat := 3

/-- Minimum packet size for LTP mode. -/
def ltpMin : Nat := 51

/-- Minimum packet size for QUOTE mode. -/
def quoteMin : Nat := 123

/-- Minimum packet size for SNAP-QUOTE mode. -/
def snapQuoteMin : Nat := 347

/-- Token bytes of a packet: `data[2:27].split(b"\x00")[0]`. -/
def tokenSlice (data : List Nat) : List Nat :=
  ((data.drop 2).take 25).takeWhile (fun b => b ≠ 0)

/-- Python `bytes.decode("ascii", errors="replace")` at the code-point
level: bytes ≥ 128 become U+FFFD. -/
def decodeAsciiReplace (bs : List Nat) : List Nat :=
  bs.map (fun b => if b < 128 then b else 0xFFFD)

/-- Python whitespace predicate for `str.strip` (ASCII range, the only
code points the decode step can produce besides U+FFFD). -/
def isPySpace (c : Nat) : Bool :=
  c = 32 ∨ c = 9 ∨ c = 10 ∨ c = 11 ∨ c = 12 ∨ c = 13

/-- Python `str.strip()` on a code-point list. -/
def stripCodes (cs : List Nat) : List Nat :=
  ((cs.dropWhile isPySpace).reverse.dropWhile isPySpace).reverse

/-- Canonical tick record (`models.py: Tick`), with prices kept in
integer paise (the wire unit) instead of the display division by
`100.0`. -/
structure TickM where
  instrument : Instrument
  ltp_paise : Int
  volume : Option Int
  oi : Option Int
  bid_paise : Option Int
  ask_paise : Option Int
  ts_ms : Option Int
deriving DecidableEq, Repr

/-- Loop of `_parse_best5_top` over the 10 × 20-byte depth records;
`fuel` counts the remaining iterations, `i` the current record index.
Zero/negative prices are skipped; the first buy-side (flag 0) record
sets the bid, the first sell-side record sets the ask; the loop breaks
once both are found. -/
def best5Go (block : List Nat) : Nat → Nat → Option Int → Option Int →
    Option Int × Option Int
  | 0, _, bid, ask => (bid, ask)
  | fuel + 1, i, bid, ask =>
    let offset := i * 20
    if block.length < offset + 20 then (bid, ask)
    else
      let flag := readU16LE block offset
      let price := readI64LE block (offset + 10)
      if price ≤ 0 then best5Go block fuel (i + 1) bid ask
      else
        let bid2 := if flag = 0 ∧ bid = none then some price else bid
        let ask2 := if ¬ flag = 0 ∧ ask = none then some price else ask
        if bid2.isSome ∧ ask2.isSome then (bid2, ask2)
        else best5Go block fuel (i + 1) bid2 ask2

/-- Embedding of `_parse_best5_top` on the 200-byte depth block. -/
def parseBest5Top (block : List Nat) : Option Int × Option Int :=
  best5Go block 10 0 none none

/-- Embedding of `AngelOneWebSocket._parse_binary` (`ws/angelone.py`
lines 238-278).  Packets shorter than the LTP minimum are dropped, as
are ticks whose token is not in the subscription ledger; the QUOTE and
SNAP-QUOTE extensions are read only when the mode byte requests them
AND the packet is long enough, otherwise those fields stay `none`. -/
def parseBinary (tokenMap : List (List Nat × Instrument)) (data : List Nat) :
    Option TickM :=
  if data.length < ltpMin then none
  else
    let mode := byteAt data 0
    let token := stripCodes (decodeAsciiReplace (tokenSlice data))
    match (tokenMap.find? (fun kv => kv.1 = token)).map (fun kv => kv.2) with
    | none => none
    | some instrument =>
      let tsMs := readI64LE data 35
      let ltp := readI64LE data 43
      let ts := if 0 < tsMs then some tsMs else none
      let volume :=
        if modeQuote ≤ mode ∧ quoteMin ≤ data.length then
          some (readI64LE data 67)
        else none
      let ext :=
        if modeSnapQuote ≤ mode ∧ snapQuoteMin ≤ data.length then
          let ba := parseBest5Top ((data.drop 147).take 200)
          (some (readI64LE data 131), ba.1, ba.2)
        else (none, none, none)
      some ⟨instrument, ltp, volume, ext.1, ext.2.1, ext.2.2, ts⟩

/-- The receive loop dispatches `on_tick` exactly when `_parse_binary`
returned a tick (`if tick and self._on_tick`, with a callback set; a
`Tick` instance is always truthy). -/
def dispatchesOnTick (tokenMap : List (List Nat × Instrument))
    (data : List Nat) : Bool :=
  (parseBinary tokenMap data).isSome

/-- A small populated store used by concrete checks: a NIFTY index
underlying (id 1), one NIFTY future (id 2) and one NIFTY 23000 CE
option (id 3), with Zerodha tokens. -/
def sampleTables : Tables :=
  { instruments :=
      [⟨1, "NSE", "NIFTY", "INDICES", some "NIFTY", 1, ⟨0, 1⟩⟩,
       ⟨2, "NFO", "NIFTY", "NFO-FUT", none, 75, ⟨5, 100⟩⟩,
       ⟨3, "NFO", "NIFTY", "NFO-OPT", none, 75, ⟨5, 100⟩⟩]
    equities := [⟨1, none⟩]
    futures := [⟨2, 1, "2026-02-26"⟩]
    options := [⟨3, 1, "2026-02-26", ⟨23000, 1⟩, "CE"⟩]
    broker_tokens :=
      [⟨1, "zerodha", "256265", "NIFTY 50"⟩,
       ⟨2, "zerodha", "1000003", "NIFTY26FEBFUT"⟩,
       ⟨3, "zerodha", "1000004", "NIFTY26FEB23000CE"⟩]
    meta := [("last_updated", "2026-10-12")] }

/-- A small parsed input used by concrete checks: one NIFTY index, two
futures (the second, GHOST, has no underlying and must be skipped) and
one option. -/
def sampleParsed : ParsedInstruments :=
  { indices :=
      [⟨"NSE", "NIFTY", "NIFTY 50", "INDICES", some "NIFTY", 1, ⟨0, 1⟩,
        "256265"⟩]
    equities := []
    futures :=
      [⟨"NFO", "NIFTY", "NIFTY26FEBFUT", "NFO-FUT", 75, ⟨5, 100⟩, "1000003",
        ⟨2026, 2, 26⟩, "NSE"⟩,
       ⟨"NFO", "GHOST", "GHOST26FEBFUT", "NFO-FUT", 75, ⟨5, 100⟩, "1000009",
        ⟨2026, 2, 26⟩, "NSE"⟩]
    options :=
      [⟨"NFO", "NIFTY", "NIFTY26FEB23000CE", "NFO-OPT", 75, ⟨5, 100⟩,
        "1000004", ⟨2026, 2, 26⟩, ⟨23000, 1⟩, "CE", "NSE"⟩] }

/-! Theorems.  Each claim of the specification gets one main theorem,
preceded by helper lemmas shared across proofs. -/

/-- The head of a list, when present, is a member. -/
theorem headMemOfEq {α : Type} {l : List α} {a : α} (h : l.head? = some a) :
    a ∈ l := by
  cases l with
  | nil => simp at h
  | cons x xs =>
    obtain rfl : x = a := by simpa using h
    exact List.mem_cons_self x xs

/-- Characterization of a passing capability check. -/
theorem verify_none_iff (caps : Capabilities) (inst : Instrument)
    (ot : OrderTy) (pt : ProductTy) :
    caps.verify inst ot pt = none ↔
      inst.isIndex = false ∧ inst.exchange ∈ caps.segments ∧
      ot ∈ caps.order_types ∧ pt ∈ caps.product_types := by
  unfold Capabilities.verify
  split_ifs with h1 h2 h3 h4 <;> simp_all

/-- C5: `place_order` runs `capabilities.verify` before anything else;
an Index instrument is rejected with `UnsupportedFeatureError` and no
HTTP request happens; an order type outside the broker's declared
`order_types` raises `UnsupportedFeatureError` with no HTTP request. -/
theorem place_order_capability_gate (caps : Capabilities) (inst : Instrument)
    (ot : OrderTy) (pt : ProductTy) (resolveRes : Except Unit ResolvedInstrument)
    (httpOrderId : String) :
    ((placeOrder caps inst ot pt resolveRes httpOrderId).2.head? =
        some .capVerify) ∧
    (inst.isIndex = true →
      (placeOrder caps inst ot pt resolveRes httpOrderId).1 =
          .error (.unsupported .indexNotTradeable) ∧
        ClientAction.httpPlaceOrder ∉
          (placeOrder caps inst ot pt resolveRes httpOrderId).2) ∧
    (ot ∉ caps.order_types →
      (∃ f, (placeOrder caps inst ot pt resolveRes httpOrderId).1 =
          .error (.unsupported f)) ∧
        ClientAction.httpPlaceOrder ∉
          (placeOrder caps inst ot pt resolveRes httpOrderId).2) := by
  refine ⟨?_, ?_, ?_⟩
  · cases h : caps.verify inst ot pt with
    | some f => simp [placeOrder, h]
    | none => cases resolveRes <;> simp [placeOrder, h]
  · intro hIdx
    have hv : caps.verify inst ot pt = some .indexNotTradeable := by
      unfold Capabilities.verify
      simp [hIdx]
    simp [placeOrder, hv]
  · intro hot
    have hv : caps.verify inst ot pt ≠ none := by
      intro h
      exact hot ((verify_none_iff caps inst ot pt).mp h).2.2.1
    cases h : caps.verify inst ot pt with
    | none => exact absurd h hv
    | some f => exact ⟨⟨f, by simp [placeOrder, h]⟩, by simp [placeOrder, h]⟩

/-- Concrete check of C5: a broker without SL_M and an index order. -/
theorem place_order_capability_gate_check :
    (placeOrder ⟨"zerodha", [.NSE, .NFO], [.MARKET, .LIMIT], [.MIS, .CNC]⟩
          (.index .NSE "NIFTY") .SL_M .MIS
          (.ok ⟨"256265", "NIFTY 50", "NSE"⟩) "oid").2.head? =
        some .capVerify ∧
      (placeOrder ⟨"zerodha", [.NSE, .NFO], [.MARKET, .LIMIT], [.MIS, .CNC]⟩
          (.index .NSE "NIFTY") .SL_M .MIS
          (.ok ⟨"256265", "NIFTY 50", "NSE"⟩) "oid").1 =
        .error (.unsupported .indexNotTradeable) ∧
      (∃ f, (placeOrder ⟨"angelone", [.NSE, .NFO], [.MARKET, .LIMIT, .SL], [.MIS]⟩
          (.equity .NSE "RELIANCE") .SL_M .MIS
          (.ok ⟨"2885", "RELIANCE-EQ", "NSE"⟩) "oid").1 =
        .error (.unsupported f)) := by
  have h1 := place_order_capability_gate
    ⟨"zerodha", [.NSE, .NFO], [.MARKET, .LIMIT], [.MIS, .CNC]⟩
    (.index .NSE "NIFTY") .SL_M .MIS (.ok ⟨"256265", "NIFTY 50", "NSE"⟩) "oid"
  have h2 := place_order_capability_gate
    ⟨"angelone", [.NSE, .NFO], [.MARKET, .LIMIT, .SL], [.MIS]⟩
    (.equity .NSE "RELIANCE") .SL_M .MIS (.ok ⟨"2885", "RELIANCE-EQ", "NSE"⟩) "oid"
  exact ⟨h1.1, (h1.2.1 rfl).1, (h2.2.2 (by decide)).1⟩

/-- C10: a session whose `expires_at` is `None` is never expired, and
`login()` adopts such a cached session without running a credential
flow, at every point in time. -/
theorem session_without_expiry_never_expires (s : SessionData) (now : Int) :
    (s.expires_at = none → s.is_expired now = false) ∧
    (s.expires_at = none → loginPath (some s) now = .adoptCached) := by
  constructor
  · intro h
    unfold SessionData.is_expired
    rw [h]
  · intro h
    simp [loginPath, SessionData.is_expired, h]

/-- Concrete check of C10 at an arbitrary far-future instant. -/
theorem session_without_expiry_never_expires_check :
    SessionData.is_expired ⟨"tok", none, none, 0, none⟩ 99999999999 = false ∧
      loginPath (some ⟨"tok", none, none, 0, none⟩) 99999999999 = .adoptCached := by
  have h := session_without_expiry_never_expires ⟨"tok", none, none, 0, none⟩ 99999999999
  exact ⟨h.1 rfl, h.2 rfl⟩

/-- Both components of a reconnect step stay within the [2, 60] band. -/
theorem reconnectStep_bounds (d : Nat) (c : Bool) (h2 : 2 ≤ d) (h60 : d ≤ 60) :
    2 ≤ (reconnectStep d c).1 ∧ (reconnectStep d c).1 ≤ 60 ∧
      2 ≤ (reconnectStep d c).2 ∧ (reconnectStep d c).2 ≤ 60 := by
  cases c <;> (simp [reconnectStep, initialReconnectDelay, maxReconnectDelay]; try omega)

/-- The stored delay stays within [2, 60] across any outcome sequence. -/
theorem reconnectFold_bounds (outcomes : List Bool) (d : Nat)
    (h2 : 2 ≤ d) (h60 : d ≤ 60) :
    2 ≤ reconnectFold d outcomes ∧ reconnectFold d outcomes ≤ 60 := by
  induction outcomes generalizing d with
  | nil => exact ⟨h2, h60⟩
  | cons c rest ih =>
    have hb := reconnectStep_bounds d c h2 h60
    simpa [reconnectFold] using ih (reconnectStep d c).2 hb.2.2.1 hb.2.2.2

/-- Every sleep performed stays within [2, 60]. -/
theorem reconnectSleeps_bounds (outcomes : List Bool) (d : Nat)
    (h2 : 2 ≤ d) (h60 : d ≤ 60) :
    ∀ s ∈ reconnectSleeps d outcomes, 2 ≤ s ∧ s ≤ 60 := by
  induction outcomes generalizing d with
  | nil => intro s hs; simp [reconnectSleeps] at hs
  | cons c rest ih =>
    intro s hs
    have hb := reconnectStep_bounds d c h2 h60
    simp only [reconnectSleeps, List.mem_cons] at hs
    rcases hs with rfl | hs
    · exact ⟨hb.1, hb.2.1⟩
    · exact ih (reconnectStep d c).2 hb.2.2.1 hb.2.2.2 s hs

/-- C9: the reconnect delay starts at 2 s; a failed session sleeps the
current delay and doubles it, capped at 60 s; a clean session resets the
sleep to 2 s; and every reachable stored delay and every sleep lies in
[2 s, 60 s]. -/
theorem reconnect_backoff_policy (outcomes : List Bool) (d : Nat) :
    initialReconnectDelay = 2 ∧
    (reconnectStep d false).1 = d ∧
    (reconnectStep d false).2 = min (d * 2) 60 ∧
    (reconnectStep d true).1 = 2 ∧
    (2 ≤ reconnectFold initialReconnectDelay outcomes ∧
      reconnectFold initialReconnectDelay outcomes ≤ 60) ∧
    (∀ s ∈ reconnectSleeps initialReconnectDelay outcomes, 2 ≤ s ∧ s ≤ 60) := by
  refine ⟨rfl, rfl, rfl, rfl, ?_, ?_⟩
  · exact reconnectFold_bounds outcomes 2 (by decide) (by decide)
  · exact reconnectSleeps_bounds outcomes 2 (by decide) (by decide)

/-- Concrete check of C9 on a run with failures, a cap-reaching streak
and a clean session. -/
theorem reconnect_backoff_policy_check :
    reconnectSleeps initialReconnectDelay
        [false, false, false, false, false, false, true, false] =
      [2, 4, 8, 16, 32, 60, 2, 4] ∧
    2 ≤ reconnectFold initialReconnectDelay
        [false, false, false, false, false, false, true, false] ∧
    reconnectFold initialReconnectDelay
        [false, false, false, false, false, false, true, false] ≤ 60 ∧
    (2 ≤ 60 ∧ (60 : Nat) ≤ 60) := by
  have h := reconnect_backoff_policy
    [false, false, false, false, false, false, true, false] 2
  exact ⟨by decide, h.2.2.2.2.1.1, h.2.2.2.2.1.2,
    h.2.2.2.2.2 60 (by decide)⟩

/-- C3: the store is stale iff `_meta.last_updated` is absent or differs
from today, and `ensure_fresh` invokes the fetch function exactly in
that case. -/
theorem staleness_gates_fetch (broker today : String) (policy : StalePolicy)
    (t : Tables) (fetchResult : Option ParsedInstruments) :
    (isStale t today = true ↔ ¬ metaGet t "last_updated" = some today) ∧
    (metaGet t "last_updated" = some today →
      (ensureFresh broker today policy t fetchResult).fetchInvoked = false) ∧
    (¬ metaGet t "last_updated" = some today →
      (ensureFresh broker today policy t fetchResult).fetchInvoked = true) := by
  have hiff : isStale t today = true ↔ ¬ metaGet t "last_updated" = some today := by
    unfold isStale
    cases h : metaGet t "last_updated" with
    | none => simp [h]
    | some v => simp [h]
  refine ⟨hiff, ?_, ?_⟩
  · intro h
    have hs : isStale t today = false := by
      cases hb : isStale t today
      · rfl
      · exact absurd (hiff.mp hb) (by simp [h])
    unfold ensureFresh
    rw [hs]
    rfl
  · intro h
    have hs : isStale t today = true := hiff.mpr h
    unfold ensureFresh
    rw [hs]
    cases fetchResult with
    | some parsed => rfl
    | none =>
      cases policy with
      | fail => rfl
      | warn =>
        simp only [if_true]
        cases hasAnyData t <;> rfl

/-- Concrete check of C3: fresh marker today skips fetch; yesterday's or
an absent marker triggers it. -/
theorem staleness_gates_fetch_check :
    (ensureFresh "zerodha" "2026-10-12" .fail
        { meta := [("last_updated", "2026-10-12")] } none).fetchInvoked = false ∧
    (ensureFresh "zerodha" "2026-10-12" .fail
        { meta := [("last_updated", "2026-10-11")] } (some {})).fetchInvoked = true ∧
    (ensureFresh "zerodha" "2026-10-12" .fail {} (some {})).fetchInvoked = true := by
  refine ⟨?_, ?_, ?_⟩
  · exact (staleness_gates_fetch "zerodha" "2026-10-12" .fail
      { meta := [("last_updated", "2026-10-12")] } none).2.1 (by decide)
  · exact (staleness_gates_fetch "zerodha" "2026-10-12" .fail
      { meta := [("last_updated", "2026-10-11")] } (some {})).2.2 (by decide)
  · exact (staleness_gates_fetch "zerodha" "2026-10-12" .fail {} (some {})).2.2
      (by decide)

/-- A successful parse of a cons cell yields a successful parse of the
tail from some accumulator. -/
theorem angelParseGo_cons_ok {r : ARow} {rest : List ARow}
    {acc res : ParsedInstruments} (h : angelParseGo (r :: rest) acc = .ok res) :
    ∃ acc2, angelParseGo rest acc2 = .ok res := by
  simp only [angelParseGo] at h
  split at h
  all_goals try split at h
  all_goals first
    | exact absurd h (by simp)
    | exact ⟨_, h⟩

/-- Options already accumulated survive to the result, and every equity
in the result is either pre-accumulated or produced by an
equity-classified input row. -/
theorem angelParseGo_shape (rows : List ARow) :
    ∀ (acc res : ParsedInstruments), angelParseGo rows acc = .ok res →
      (∀ o ∈ acc.options, o ∈ res.options) ∧
      (∀ e ∈ res.equities, e ∈ acc.equities ∨
        ∃ row, row ∈ rows ∧ angelClassify row = .equ ∧
          angelParseEquity row = some e) := by
  induction rows with
  | nil =>
    intro acc res h
    obtain rfl : acc = res := by simpa [angelParseGo] using h
    exact ⟨fun o ho => ho, fun e he => .inl he⟩
  | cons r rest ih =>
    intro acc res h
    simp only [angelParseGo] at h
    split at h
    · -- index branch
      split at h
      · obtain ⟨mono, src⟩ := ih _ _ h
        refine ⟨fun o ho => mono o ho, fun e he => ?_⟩
        rcases src e he with hin | ⟨row2, hr2, hc2, hp2⟩
        · exact .inl hin
        · exact .inr ⟨row2, List.mem_cons_of_mem _ hr2, hc2, hp2⟩
      · exact absurd h (by simp)
    · -- equity branch
      rename_i hcl
      split at h
      · rename_i e0 hpe
        obtain ⟨mono, src⟩ := ih _ _ h
        refine ⟨fun o ho => mono o ho, fun e he => ?_⟩
        rcases src e he with hin | ⟨row2, hr2, hc2, hp2⟩
        · rcases List.mem_append.mp hin with h1 | h2
          · exact .inl h1
          · refine .inr ⟨r, List.mem_cons_self r rest, hcl, ?_⟩
            rw [hpe, List.mem_singleton.mp h2]
        · exact .inr ⟨row2, List.mem_cons_of_mem _ hr2, hc2, hp2⟩
      · exact absurd h (by simp)
    · -- futures branch
      split at h
      · obtain ⟨mono, src⟩ := ih _ _ h
        refine ⟨fun o ho => mono o ho, fun e he => ?_⟩
        rcases src e he with hin | ⟨row2, hr2, hc2, hp2⟩
        · exact .inl hin
        · exact .inr ⟨row2, List.mem_cons_of_mem _ hr2, hc2, hp2⟩
      · exact absurd h (by simp)
    · -- options branch
      split at h
      · obtain ⟨mono, src⟩ := ih _ _ h
        refine ⟨fun o ho => mono o (List.mem_append_left _ ho), fun e he => ?_⟩
        rcases src e he with hin | ⟨row2, hr2, hc2, hp2⟩
        · exact .inl hin
        · exact .inr ⟨row2, List.mem_cons_of_mem _ hr2, hc2, hp2⟩
      · exact absurd h (by simp)
    · -- skip branch
      obtain ⟨mono, src⟩ := ih _ _ h
      refine ⟨fun o ho => mono o ho, fun e he => ?_⟩
      rcases src e he with hin | ⟨row2, hr2, hc2, hp2⟩
      · exact .inl hin
      · exact .inr ⟨row2, List.mem_cons_of_mem _ hr2, hc2, hp2⟩

/-- Every option-classified row of a successful parse contributes its
parsed option to the result. -/
theorem angelParseGo_opt_mem (rows : List ARow) :
    ∀ (acc res : ParsedInstruments) (row : ARow), row ∈ rows →
      angelClassify row = .opt → angelParseGo rows acc = .ok res →
      ∃ o, angelParseOption row = some o ∧ o ∈ res.options := by
  induction rows with
  | nil => intro acc res row hrow; exact absurd hrow (List.not_mem_nil row)
  | cons r rest ih =>
    intro acc res row hrow hcl h
    rcases List.mem_cons.mp hrow with rfl | htail
    · simp only [angelParseGo, hcl] at h
      cases hpo : angelParseOption row with
      | none => rw [hpo] at h; exact absurd h (by simp)
      | some o =>
        rw [hpo] at h
        exact ⟨o, rfl, (angelParseGo_shape rest _ _ h).1 o (by simp)⟩
    · obtain ⟨acc2, h2⟩ := angelParseGo_cons_ok h
      exact ih acc2 res row htail hcl h2

/-- Option-typed NFO/BFO AngelOne rows classify into the options
branch. -/
theorem angelClassify_opt_of (row : ARow)
    (hty : pyTrim row.instrumenttype = "OPTIDX" ∨ pyTrim row.instrumenttype = "OPTSTK")
    (hex : pyTrim row.exch_seg = "NFO" ∨ pyTrim row.exch_seg = "BFO") :
    angelClassify row = .opt := by
  unfold angelClassify
  rcases hty with h1 | h1 <;> rcases hex with h2 | h2 <;> rw [h1, h2] <;> simp

/-- Equity-classified AngelOne rows have an empty instrument type. -/
theorem angelClassify_equ_sound (row : ARow) (h : angelClassify row = .equ) :
    pyTrim row.instrumenttype = "" := by
  by_cases he : pyTrim row.instrumenttype = ""
  · exact he
  · exfalso
    simp only [angelClassify, he, false_and, if_false] at h
    split at h
    · exact absurd h (by simp)
    · split at h
      · exact absurd h (by simp)
      · split at h <;> exact absurd h (by simp)

/-- Tail-step lemma for the Zerodha classification loop. -/
theorem zerodhaParseGo_cons_ok {r : ZRow} {rest : List ZRow}
    {acc res : ParsedInstruments} (h : zerodhaParseGo (r :: rest) acc = .ok res) :
    ∃ acc2, zerodhaParseGo rest acc2 = .ok res := by
  simp only [zerodhaParseGo] at h
  split at h
  all_goals try split at h
  all_goals first
    | exact absurd h (by simp)
    | exact ⟨_, h⟩

/-- Zerodha analogue of `angelParseGo_shape`. -/
theorem zerodhaParseGo_shape (rows : List ZRow) :
    ∀ (acc res : ParsedInstruments), zerodhaParseGo rows acc = .ok res →
      (∀ o ∈ acc.options, o ∈ res.options) ∧
      (∀ e ∈ res.equities, e ∈ acc.equities ∨
        ∃ row, row ∈ rows ∧ zClassify row = .equ ∧ zParseEquity row = some e) := by
  induction rows with
  | nil =>
    intro acc res h
    obtain rfl : acc = res := by simpa [zerodhaParseGo] using h
    exact ⟨fun o ho => ho, fun e he => .inl he⟩
  | cons r rest ih =>
    intro acc res h
    simp only [zerodhaParseGo] at h
    split at h
    · split at h
      · obtain ⟨mono, src⟩ := ih _ _ h
        refine ⟨fun o ho => mono o ho, fun e he => ?_⟩
        rcases src e he with hin | ⟨row2, hr2, hc2, hp2⟩
        · exact .inl hin
        · exact .inr ⟨row2, List.mem_cons_of_mem _ hr2, hc2, hp2⟩
      · exact absurd h (by simp)
    · rename_i hcl
      split at h
      · rename_i e0 hpe
        obtain ⟨mono, src⟩ := ih _ _ h
        refine ⟨fun o ho => mono o ho, fun e he => ?_⟩
        rcases src e he with hin | ⟨row2, hr2, hc2, hp2⟩
        · rcases List.mem_append.mp hin with h1 | h2
          · exact .inl h1
          · refine .inr ⟨r, List.mem_cons_self r rest, hcl, ?_⟩
            rw [hpe, List.mem_singleton.mp h2]
        · exact .inr ⟨row2, List.mem_cons_of_mem _ hr2, hc2, hp2⟩
      · exact absurd h (by simp)
    · split at h
      · obtain ⟨mono, src⟩ := ih _ _ h
        refine ⟨fun o ho => mono o ho, fun e he => ?_⟩
        rcases src e he with hin | ⟨row2, hr2, hc2, hp2⟩
        · exact .inl hin
        · exact .inr ⟨row2, List.mem_cons_of_mem _ hr2, hc2, hp2⟩
      · exact absurd h (by simp)
    · split at h
      · obtain ⟨mono, src⟩ := ih _ _ h
        refine ⟨fun o ho => mono o (List.mem_append_left _ ho), fun e he => ?_⟩
        rcases src e he with hin | ⟨row2, hr2, hc2, hp2⟩
        · exact .inl hin
        · exact .inr ⟨row2, List.mem_cons_of_mem _ hr2, hc2, hp2⟩
      · exact absurd h (by simp)
    · obtain ⟨mono, src⟩ := ih _ _ h
      refine ⟨fun o ho => mono o ho, fun e he => ?_⟩
      rcases src e he with hin | ⟨row2, hr2, hc2, hp2⟩
      · exact .inl hin
      · exact .inr ⟨row2, List.mem_cons_of_mem _ hr2, hc2, hp2⟩

/-- Zerodha analogue of `angelParseGo_opt_mem`. -/
theorem zerodhaParseGo_opt_mem (rows : List ZRow) :
    ∀ (acc res : ParsedInstruments) (row : ZRow), row ∈ rows →
      zClassify row = .opt → zerodhaParseGo rows acc = .ok res →
      ∃ o, zParseOption row = some o ∧ o ∈ res.options := by
  induction rows with
  | nil => intro acc res row hrow; exact absurd hrow (List.not_mem_nil row)
  | cons r rest ih =>
    intro acc res row hrow hcl h
    rcases List.mem_cons.mp hrow with rfl | htail
    · simp only [zerodhaParseGo, hcl] at h
      cases hpo : zParseOption row with
      | none => rw [hpo] at h; exact absurd h (by simp)
      | some o =>
        rw [hpo] at h
        exact ⟨o, rfl, (zerodhaParseGo_shape rest _ _ h).1 o (by simp)⟩
    · obtain ⟨acc2, h2⟩ := zerodhaParseGo_cons_ok h
      exact ih acc2 res row htail hcl h2

/-- CE/PE NFO/BFO Zerodha rows classify into the options branch. -/
theorem zClassify_opt_of (row : ZRow)
    (hex : row.exchange = "NFO" ∨ row.exchange = "BFO")
    (hty : row.instrument_type = "CE" ∨ row.instrument_type = "PE") :
    zClassify row = .opt := by
  unfold zClassify
  rcases hex with h1 | h1 <;> rcases hty with h2 | h2 <;> rw [h1, h2] <;> simp

/-- Equity-classified Zerodha rows sit on a cash exchange. -/
theorem zClassify_equ_sound (row : ZRow) (h : zClassify row = .equ) :
    row.exchange = "NSE" ∨ row.exchange = "BSE" := by
  by_cases hmem : row.exchange ∈ ["NSE", "BSE"]
  · simpa using hmem
  · exfalso
    unfold zClassify at h
    rw [if_neg hmem] at h
    split at h
    · split at h
      · exact absurd h (by simp)
      · split at h <;> exact absurd h (by simp)
    · exact absurd h (by simp)

/-- C7 counterexample: an OPTIDX NFO row whose source strike field is
`"0"` is parsed into the options group (with strike 0 after the ÷100
normalization) by the AngelOne parser, and likewise a CE NFO row with
strike `"0"` by the Zerodha parser — neither row is rejected. -/
theorem strike_zero_option_not_rejected :
    ((angelParse
        [⟨"67890", "DUMMY26FEB26CE", "DUMMY", "26FEB2026", "0", "75",
          "OPTIDX", "NFO", "0.05"⟩]).toOption.map
      (fun r => (r.indices.length, r.equities.length, r.futures.length,
        r.options.map (fun o => (o.strike.eqv (Dec.ofInt 0), o.option_type)))) =
      some (0, 0, 0, [(true, "CE")])) ∧
    ((zerodhaParse
        [⟨"1000004", "3907", "DUMMY26FEB0CE", "DUMMY", "0", "2026-02-26",
          "0", "0.05", "75", "CE", "NFO-OPT", "NFO"⟩]).toOption.map
      (fun r => (r.indices.length, r.equities.length, r.futures.length,
        r.options.map (fun o => (o.strike.eqv (Dec.ofInt 0), o.option_type)))) =
      some (0, 0, 0, [(true, "CE")])) := by
  constructor <;> decide

/-- C7 amended: a source row classified as an option (OPTIDX/OPTSTK for
AngelOne, CE/PE on NFO/BFO for Zerodha) whose strike field encodes 0 is
not rejected: its parsed option (strike 0 after normalization) lands in
the options group, and in both parsers every equity in the output comes
from an equity-classified cash row, so an option row never appears as
an equity. -/
theorem option_rows_kept_in_options :
    (∀ (rows : List ARow) (res : ParsedInstruments) (row : ARow), row ∈ rows →
      (pyTrim row.instrumenttype = "OPTIDX" ∨ pyTrim row.instrumenttype = "OPTSTK") →
      (pyTrim row.exch_seg = "NFO" ∨ pyTrim row.exch_seg = "BFO") →
      angelParse rows = .ok res →
      ∃ o, angelParseOption row = some o ∧ o ∈ res.options) ∧
    (∀ (rows : List ARow) (res : ParsedInstruments) (e : ParsedEquity),
      angelParse rows = .ok res → e ∈ res.equities →
      ∃ row, row ∈ rows ∧ pyTrim row.instrumenttype = "" ∧
        angelParseEquity row = some e) ∧
    (∀ (rows : List ZRow) (res : ParsedInstruments) (row : ZRow), row ∈ rows →
      (row.exchange = "NFO" ∨ row.exchange = "BFO") →
      (row.instrument_type = "CE" ∨ row.instrument_type = "PE") →
      zerodhaParse rows = .ok res →
      ∃ o, zParseOption row = some o ∧ o ∈ res.options) ∧
    (∀ (rows : List ZRow) (res : ParsedInstruments) (e : ParsedEquity),
      zerodhaParse rows = .ok res → e ∈ res.equities →
      ∃ row, row ∈ rows ∧ (row.exchange = "NSE" ∨ row.exchange = "BSE") ∧
        zParseEquity row = some e) := by
  refine ⟨?_, ?_, ?_, ?_⟩
  · intro rows res row hrow hty hex h
    exact angelParseGo_opt_mem rows {} res row hrow
      (angelClassify_opt_of row hty hex) h
  · intro rows res e h he
    obtain ⟨row, hr, hc, hp⟩ :=
      ((angelParseGo_shape rows {} res h).2 e he).resolve_left (by simp)
    exact ⟨row, hr, angelClassify_equ_sound row hc, hp⟩
  · intro rows res row hrow hex hty h
    exact zerodhaParseGo_opt_mem rows {} res row hrow
      (zClassify_opt_of row hex hty) h
  · intro rows res e h he
    obtain ⟨row, hr, hc, hp⟩ :=
      ((zerodhaParseGo_shape rows {} res h).2 e he).resolve_left (by simp)
    exact ⟨row, hr, zClassify_equ_sound row hc, hp⟩

/-- Concrete check of C7's amended statement on the counterexample
rows. -/
theorem option_rows_kept_in_options_check :
    (∃ res o,
      angelParse
        [⟨"67890", "DUMMY26FEB26CE", "DUMMY", "26FEB2026", "0", "75",
          "OPTIDX", "NFO", "0.05"⟩] = .ok res ∧
      angelParseOption
        ⟨"67890", "DUMMY26FEB26CE", "DUMMY", "26FEB2026", "0", "75",
          "OPTIDX", "NFO", "0.05"⟩ = some o ∧ o ∈ res.options) ∧
    (∃ res o,
      zerodhaParse
        [⟨"1000004", "3907", "DUMMY26FEB0CE", "DUMMY", "0", "2026-02-26",
          "0", "0.05", "75", "CE", "NFO-OPT", "NFO"⟩] = .ok res ∧
      zParseOption
        ⟨"1000004", "3907", "DUMMY26FEB0CE", "DUMMY", "0", "2026-02-26",
          "0", "0.05", "75", "CE", "NFO-OPT", "NFO"⟩ = some o ∧
        o ∈ res.options) := by
  constructor
  · have ha : angelParse
        [⟨"67890", "DUMMY26FEB26CE", "DUMMY", "26FEB2026", "0", "75",
          "OPTIDX", "NFO", "0.05"⟩] =
        .ok ⟨[], [], [],
          [⟨"NFO", "DUMMY", "DUMMY26FEB26CE", "NFO-OPT", 75, ⟨5, 100⟩, "67890",
            ⟨2026, 2, 26⟩, ⟨0, 100⟩, "CE", "NSE"⟩]⟩ := by rfl
    obtain ⟨o, ho, hm⟩ := option_rows_kept_in_options.1 _ _ _
      (List.mem_singleton_self _) (Or.inl (by decide)) (Or.inl (by decide)) ha
    exact ⟨_, o, ha, ho, hm⟩
  · have hz : zerodhaParse
        [⟨"1000004", "3907", "DUMMY26FEB0CE", "DUMMY", "0", "2026-02-26",
          "0", "0.05", "75", "CE", "NFO-OPT", "NFO"⟩] =
        .ok ⟨[], [], [],
          [⟨"NFO", "DUMMY", "DUMMY26FEB0CE", "NFO-OPT", 75, ⟨5, 100⟩, "1000004",
            ⟨2026, 2, 26⟩, ⟨0, 1⟩, "CE", "NSE"⟩]⟩ := by rfl
    obtain ⟨o, ho, hm⟩ := option_rows_kept_in_options.2.2.1 _ _ _
      (List.mem_singleton_self _) (Or.inl (by decide)) (Or.inl (by decide)) hz
    exact ⟨_, o, hz, ho, hm⟩

/-- C8 counterexample: a 51-byte packet whose own mode byte is QUOTE
(2) — i.e. shorter than the 123-byte QUOTE minimum — still produces a
Tick (with the QUOTE extension fields absent) and the receive loop
dispatches `on_tick` for it; it is not discarded. -/
theorem short_quote_packet_not_discarded :
    (List.length (2 :: 1 :: 49 :: List.replicate 48 0) = 51) ∧
    byteAt (2 :: 1 :: 49 :: List.replicate 48 0) 0 = modeQuote ∧
    List.length (2 :: 1 :: 49 :: List.replicate 48 0) < quoteMin ∧
    parseBinary [([49], Instrument.equity .NSE "X")]
        (2 :: 1 :: 49 :: List.replicate 48 0) =
      some ⟨Instrument.equity .NSE "X", 0, none, none, none, none, none⟩ ∧
    dispatchesOnTick [([49], Instrument.equity .NSE "X")]
        (2 :: 1 :: 49 :: List.replicate 48 0) = true := by
  refine ⟨by decide, by decide, by decide, by rfl, by decide⟩

/-- C8 amended: only packets shorter than the 51-byte LTP header are
discarded, whatever their mode byte says; a packet of at least 51 bytes
whose mode byte declares QUOTE (resp. SNAP-QUOTE) but which is shorter
than 123 (resp. 347) bytes still yields a Tick, with the extension
fields (`volume`; `oi`/`bid`/`ask`) set to `none`. -/
theorem packet_length_gating (tokenMap : List (List Nat × Instrument))
    (data : List Nat) :
    (data.length < ltpMin → parseBinary tokenMap data = none) ∧
    (∀ t, parseBinary tokenMap data = some t → data.length < quoteMin →
      t.volume = none ∧ t.oi = none ∧ t.bid_paise = none ∧ t.ask_paise = none) ∧
    (∀ t, parseBinary tokenMap data = some t → data.length < snapQuoteMin →
      t.oi = none ∧ t.bid_paise = none ∧ t.ask_paise = none) := by
  refine ⟨?_, ?_, ?_⟩
  · intro h
    unfold parseBinary
    rw [if_pos h]
  · intro t h hlen
    by_cases hshort : data.length < ltpMin
    · simp only [parseBinary, if_pos hshort] at h
      exact absurd h (by simp)
    · simp only [parseBinary, if_neg hshort] at h
      rcases hfind : (tokenMap.find? (fun kv =>
          kv.1 = stripCodes (decodeAsciiReplace (tokenSlice data)))).map
            (fun kv => kv.2) with _ | instrument
      · rw [hfind] at h
        exact absurd h (by simp)
      · rw [hfind] at h
        have hq : ¬ (modeQuote ≤ byteAt data 0 ∧ quoteMin ≤ data.length) := by
          intro hc
          omega
        have hs : ¬ (modeSnapQuote ≤ byteAt data 0 ∧ snapQuoteMin ≤ data.length) := by
          intro hc
          have : quoteMin ≤ data.length := by
            have := hc.2
            unfold snapQuoteMin at this
            unfold quoteMin
            omega
          omega
        rw [if_neg hq, if_neg hs] at h
        obtain rfl : t = ⟨instrument, readI64LE data 43, none, none, none, none,
            if 0 < readI64LE data 35 then some (readI64LE data 35) else none⟩ := by
          cases h
          rfl
        exact ⟨rfl, rfl, rfl, rfl⟩
  · intro t h hlen
    by_cases hshort : data.length < ltpMin
    · simp only [parseBinary, if_pos hshort] at h
      exact absurd h (by simp)
    · simp only [parseBinary, if_neg hshort] at h
      rcases hfind : (tokenMap.find? (fun kv =>
          kv.1 = stripCodes (decodeAsciiReplace (tokenSlice data)))).map
            (fun kv => kv.2) with _ | instrument
      · rw [hfind] at h
        exact absurd h (by simp)
      · rw [hfind] at h
        have hs : ¬ (modeSnapQuote ≤ byteAt data 0 ∧ snapQuoteMin ≤ data.length) := by
          intro hc
          omega
        rw [if_neg hs] at h
        cases h
        exact ⟨rfl, rfl, rfl⟩

/-- Concrete check of C8's amended statement: a 50-byte packet is
dropped; a 51-byte QUOTE packet keeps only the header fields; a
123-byte SNAP-QUOTE-mode packet (shorter than 347) has no depth
fields. -/
theorem packet_length_gating_check :
    parseBinary [([49], Instrument.equity .NSE "X")]
        (2 :: 1 :: 49 :: List.replicate 47 0) = none ∧
    ((⟨Instrument.equity .NSE "X", 0, none, none, none, none, none⟩ :
        TickM).volume = none ∧
      (⟨Instrument.equity .NSE "X", 0, none, none, none, none, none⟩ :
        TickM).oi = none ∧
      (⟨Instrument.equity .NSE "X", 0, none, none, none, none, none⟩ :
        TickM).bid_paise = none ∧
      (⟨Instrument.equity .NSE "X", 0, none, none, none, none, none⟩ :
        TickM).ask_paise = none) ∧
    ((⟨Instrument.equity .NSE "X", 0, some 0, none, none, none, none⟩ :
        TickM).oi = none ∧
      (⟨Instrument.equity .NSE "X", 0, some 0, none, none, none, none⟩ :
        TickM).bid_paise = none ∧
      (⟨Instrument.equity .NSE "X", 0, some 0, none, none, none, none⟩ :
        TickM).ask_paise = none) := by
  refine ⟨?_, ?_, ?_⟩
  · exact (packet_length_gating [([49], Instrument.equity .NSE "X")]
      (2 :: 1 :: 49 :: List.replicate 47 0)).1 (by decide)
  · exact (packet_length_gating [([49], Instrument.equity .NSE "X")]
      (2 :: 1 :: 49 :: List.replicate 48 0)).2.1
      ⟨Instrument.equity .NSE "X", 0, none, none, none, none, none⟩
      (by rfl) (by decide)
  · exact (packet_length_gating [([49], Instrument.equity .NSE "X")]
      (3 :: 1 :: 49 :: List.replicate 120 0)).2.2
      ⟨Instrument.equity .NSE "X", 0, some 0, none, none, none, none⟩
      (by rfl) (by decide)

/-- A transient attempt outcome is a timeout or a 5xx with a
JSON-object body. -/
theorem transient_cases (e : HttpEvent) (h : transientEvent e = true) :
    e = .timeout ∨ ∃ s raw, e = .resp s (.jsonDict raw) ∧ 500 ≤ s := by
  cases e with
  | timeout => exact .inl rfl
  | resp s b =>
    cases b with
    | jsonDict raw =>
      refine .inr ⟨s, raw, rfl, ?_⟩
      simpa [transientEvent] using h
    | jsonNonDict => simp [transientEvent] at h
    | notJson => simp [transientEvent] at h

/-- C4 counterexample: three straight timeouts exhaust the budget and
`_request` raises the base `TTConnectError` — which is not a
`BrokerError` — as the final error (with the last timeout as cause);
and a 5xx response whose body is not JSON is not retried at all: the
JSON decode error is re-raised on the first attempt with no sleeps. -/
theorem retry_exhaustion_not_broker_error :
    (request (fun _ _ => false) (fun _ => ExcClass.brokerError)
        (fun _ => HttpEvent.timeout) =
      (⟨.exhausted (some .timeoutExc), [1, 2, 4], 3⟩ : ReqRun ExcClass)) ∧
    outcomeClass (fun c => c)
        (ReqOutcome.exhausted (β := ExcClass) (some .timeoutExc)) =
      some .ttConnectError ∧
    ExcClass.isBrokerError .ttConnectError = false ∧
    (request (fun _ _ => false) (fun _ => ExcClass.brokerError)
        (fun _ => HttpEvent.resp 503 .notJson) =
      (⟨.jsonDecodeFailure 503, [], 1⟩ : ReqRun ExcClass)) := by
  exact ⟨rfl, rfl, rfl, rfl⟩

/-- C4 amended: when every attempt hits a transient outcome (timeout,
or 5xx with a JSON-object body), `_request` makes exactly 3 attempts,
sleeps 1 s, 2 s and 4 s (the last sleep after the final attempt), and
raises the base `TTConnectError` carrying the last attempt's error as
cause; a sub-500 response that the adapter declares a business error is
raised immediately via `parse_error` with no retry, and a clean sub-500
response returns on the first attempt. -/
theorem http_retry_policy {β : Type} (isErr : RawDict → Nat → Bool)
    (parseErr : RawDict → β) (businessClass : β → ExcClass)
    (ev : Nat → HttpEvent) :
    ((∀ a, 1 ≤ a → a ≤ 3 → transientEvent (ev a) = true) →
      request isErr parseErr ev =
        ⟨.exhausted (causeOf (ev 3)), [1, 2, 4], 3⟩ ∧
      outcomeClass businessClass (ReqOutcome.exhausted (β := β) (causeOf (ev 3))) =
        some .ttConnectError) ∧
    (∀ status raw, ev 1 = .resp status (.jsonDict raw) → status < 500 →
      isErr raw status = true →
      request isErr parseErr ev = ⟨.business (parseErr raw), [], 1⟩) ∧
    (∀ status raw, ev 1 = .resp status (.jsonDict raw) → status < 500 →
      isErr raw status = false →
      request isErr parseErr ev = ⟨.ok raw, [], 1⟩) := by
  refine ⟨?_, ?_, ?_⟩
  · intro H
    have c1 := transient_cases (ev 1) (H 1 (by omega) (by omega))
    have c2 := transient_cases (ev 2) (H 2 (by omega) (by omega))
    have c3 := transient_cases (ev 3) (H 3 (by omega) (by omega))
    constructor
    · rcases c1 with h1 | ⟨s1, r1, h1, hs1⟩ <;>
        rcases c2 with h2 | ⟨s2, r2, h2, hs2⟩ <;>
          rcases c3 with h3 | ⟨s3, r3, h3, hs3⟩ <;>
            simp [request, requestGo, h1, h2, h3, retryBackoff, causeOf, *]
    · rfl
  · intro status raw h1 h500 herr
    simp [request, requestGo, h1, Nat.not_le.mpr h500, herr]
  · intro status raw h1 h500 herr
    simp [request, requestGo, h1, Nat.not_le.mpr h500, herr]

/-- Concrete check of C4's amended statement: all-timeouts, an
immediate 400 business error, and an immediate 200 success. -/
theorem http_retry_policy_check :
    (request (fun _ _ => false) (fun _ => ExcClass.brokerError)
        (fun _ => HttpEvent.timeout) =
      (⟨.exhausted (some .timeoutExc), [1, 2, 4], 3⟩ : ReqRun ExcClass)) ∧
    (request (fun _ _ => true) (fun _ => ExcClass.invalidOrderError)
        (fun _ => HttpEvent.resp 400 (.jsonDict [("status", "error")])) =
      (⟨.business .invalidOrderError, [], 1⟩ : ReqRun ExcClass)) ∧
    (request (fun _ _ => false) (fun _ => ExcClass.brokerError)
        (fun _ => HttpEvent.resp 200 (.jsonDict [("status", "ok")])) =
      (⟨.ok [("status", "ok")], [], 1⟩ : ReqRun ExcClass)) := by
  refine ⟨?_, ?_, ?_⟩
  · have h := (http_retry_policy (fun _ _ => false)
      (fun _ => ExcClass.brokerError) (fun c => c)
      (fun _ => HttpEvent.timeout)).1 (fun a _ _ => rfl)
    exact h.1
  · exact (http_retry_policy (fun _ _ => true)
      (fun _ => ExcClass.invalidOrderError) (fun c => c)
      (fun _ => HttpEvent.resp 400 (.jsonDict [("status", "error")]))).2.1
      400 [("status", "error")] rfl (by omega) rfl
  · exact (http_retry_policy (fun _ _ => false)
      (fun _ => ExcClass.brokerError) (fun c => c)
      (fun _ => HttpEvent.resp 200 (.jsonDict [("status", "ok")]))).2.2
      200 [("status", "ok")] rfl (by omega) rfl

/-- C6: a successful future (resp. option) resolution comes from a join
row matching the user-supplied underlying (exchange, symbol) plus
expiry (plus strike and option side for options) through the
`underlying_id` link, and the returned routing exchange is the one on
the derivative's own `instruments` row. -/
theorem resolver_joins_underlying (t : Tables) (broker : String) :
    (∀ (ex : Exchange) (sym : String) (expiry : Date) (r : ResolvedInstrument),
      resolveFutureQ t broker ex sym expiry = some r →
      ∃ fut f u bt, fut ∈ t.instruments ∧ f ∈ t.futures ∧ u ∈ t.instruments ∧
        bt ∈ t.broker_tokens ∧ f.instrument_id = fut.id ∧
        u.id = f.underlying_id ∧ bt.instrument_id = fut.id ∧
        u.exchange = exchangeStr ex ∧ u.symbol = sym ∧ f.expiry = expiry.iso ∧
        bt.broker_id = broker ∧
        r = ⟨bt.token, bt.broker_symbol, fut.exchange⟩) ∧
    (∀ (ex : Exchange) (sym : String) (expiry : Date) (strike : Dec)
        (oty : OptionTy) (r : ResolvedInstrument),
      resolveOptionQ t broker ex sym expiry strike oty = some r →
      ∃ opt o u bt, opt ∈ t.instruments ∧ o ∈ t.options ∧ u ∈ t.instruments ∧
        bt ∈ t.broker_tokens ∧ o.instrument_id = opt.id ∧
        u.id = o.underlying_id ∧ bt.instrument_id = opt.id ∧
        u.exchange = exchangeStr ex ∧ u.symbol = sym ∧ o.expiry = expiry.iso ∧
        o.strike.eqv strike = true ∧ o.option_type = optionTyStr oty ∧
        bt.broker_id = broker ∧
        r = ⟨bt.token, bt.broker_symbol, opt.exchange⟩) := by
  constructor
  · intro ex sym expiry r h
    unfold resolveFutureQ at h
    cases hh : (futureJoin t broker (exchangeStr ex) sym expiry.iso).head? with
    | none => rw [hh] at h; simp at h
    | some q =>
      rw [hh] at h
      have hq := headMemOfEq hh
      obtain rfl : (⟨q.2.2.2.token, q.2.2.2.broker_symbol, q.1.exchange⟩ :
          ResolvedInstrument) = r := by simpa using h
      unfold futureJoin at hq
      rw [List.mem_flatMap] at hq
      obtain ⟨fut, hfut, hq⟩ := hq
      rw [List.mem_flatMap] at hq
      obtain ⟨f, hf, hq⟩ := hq
      rw [List.mem_flatMap] at hq
      obtain ⟨u, hu, hq⟩ := hq
      rw [List.mem_filterMap] at hq
      obtain ⟨bt, hbt, hcond⟩ := hq
      simp only [List.mem_filter, decide_eq_true_eq] at hf hu hbt
      split_ifs at hcond with hc
      · obtain rfl : (fut, f, u, bt) = q := by simpa using hcond
        exact ⟨fut, f, u, bt, hfut, hf.1, hu.1, hbt.1, hf.2, hu.2, hbt.2,
          hc.1, hc.2.1, hc.2.2.1, hc.2.2.2, rfl⟩
  · intro ex sym expiry strike oty r h
    unfold resolveOptionQ at h
    cases hh : (optionJoin t broker (exchangeStr ex) sym expiry.iso strike
        (optionTyStr oty)).head? with
    | none => rw [hh] at h; simp at h
    | some q =>
      rw [hh] at h
      have hq := headMemOfEq hh
      obtain rfl : (⟨q.2.2.2.token, q.2.2.2.broker_symbol, q.1.exchange⟩ :
          ResolvedInstrument) = r := by simpa using h
      unfold optionJoin at hq
      rw [List.mem_flatMap] at hq
      obtain ⟨opt, hopt, hq⟩ := hq
      rw [List.mem_flatMap] at hq
      obtain ⟨o, ho, hq⟩ := hq
      rw [List.mem_flatMap] at hq
      obtain ⟨u, hu, hq⟩ := hq
      rw [List.mem_filterMap] at hq
      obtain ⟨bt, hbt, hcond⟩ := hq
      simp only [List.mem_filter, decide_eq_true_eq] at ho hu hbt
      split_ifs at hcond with hc
      · obtain rfl : (opt, o, u, bt) = q := by simpa using hcond
        exact ⟨opt, o, u, bt, hopt, ho.1, hu.1, hbt.1, ho.2, hu.2, hbt.2,
          hc.1, hc.2.1, hc.2.2.1, hc.2.2.2.1, hc.2.2.2.2.1, hc.2.2.2.2.2, rfl⟩

/-- Concrete check of C6 on `sampleTables`: both resolutions succeed,
match through the underlying, and route to NFO. -/
theorem resolver_joins_underlying_check :
    (∃ fut f u bt, fut ∈ sampleTables.instruments ∧ f ∈ sampleTables.futures ∧
      u ∈ sampleTables.instruments ∧ bt ∈ sampleTables.broker_tokens ∧
      f.instrument_id = fut.id ∧ u.id = f.underlying_id ∧
      bt.instrument_id = fut.id ∧ u.exchange = exchangeStr .NSE ∧
      u.symbol = "NIFTY" ∧ f.expiry = (Date.mk 2026 2 26).iso ∧
      bt.broker_id = "zerodha" ∧
      (⟨"1000003", "NIFTY26FEBFUT", "NFO"⟩ : ResolvedInstrument) =
        ⟨bt.token, bt.broker_symbol, fut.exchange⟩) ∧
    (∃ opt o u bt, opt ∈ sampleTables.instruments ∧ o ∈ sampleTables.options ∧
      u ∈ sampleTables.instruments ∧ bt ∈ sampleTables.broker_tokens ∧
      o.instrument_id = opt.id ∧ u.id = o.underlying_id ∧
      bt.instrument_id = opt.id ∧ u.exchange = exchangeStr .NSE ∧
      u.symbol = "NIFTY" ∧ o.expiry = (Date.mk 2026 2 26).iso ∧
      o.strike.eqv ⟨23000, 1⟩ = true ∧ o.option_type = optionTyStr .CE ∧
      bt.broker_id = "zerodha" ∧
      (⟨"1000004", "NIFTY26FEB23000CE", "NFO"⟩ : ResolvedInstrument) =
        ⟨bt.token, bt.broker_symbol, opt.exchange⟩) := by
  have h := resolver_joins_underlying sampleTables "zerodha"
  exact ⟨h.1 .NSE "NIFTY" ⟨2026, 2, 26⟩
      ⟨"1000003", "NIFTY26FEBFUT", "NFO"⟩ (by rfl),
    h.2 .NSE "NIFTY" ⟨2026, 2, 26⟩ ⟨23000, 1⟩ .CE
      ⟨"1000004", "NIFTY26FEB23000CE", "NFO"⟩ (by rfl)⟩

/-- A hit in the underlying lookup names an existing instruments row. -/
theorem underlyingLookup_mem (t : Tables) (ex sym : String) (uid : Nat)
    (h : underlyingLookup t ex sym = some uid) :
    ∃ r ∈ t.instruments, r.id = uid := by
  unfold underlyingLookup at h
  cases hf : t.instruments.reverse.find?
      (fun r => decide (r.exchange = ex ∧ r.symbol = sym)) with
  | none => rw [hf] at h; simp at h
  | some r =>
    rw [hf] at h
    obtain rfl : r.id = uid := by simpa using h
    exact ⟨r, List.mem_reverse.mp (List.mem_of_find?_eq_some hf), rfl⟩

/-- Index insertion touches neither the futures nor the options table. -/
theorem insertIndices_fo (broker : String) (idxs : List ParsedIndex) :
    ∀ st : Tables × Nat,
      (insertIndices broker st idxs).1.futures = st.1.futures ∧
      (insertIndices broker st idxs).1.options = st.1.options := by
  induction idxs with
  | nil => intro st; exact ⟨rfl, rfl⟩
  | cons i rest ih =>
    intro st
    have h := ih (insertIndexRow broker st i)
    simpa [insertIndices, List.foldl_cons, insertIndexRow] using h

/-- Equity insertion touches neither the futures nor the options
table. -/
theorem insertEquities_fo (broker : String) (eqs : List ParsedEquity) :
    ∀ st : Tables × Nat,
      (insertEquities broker st eqs).1.futures = st.1.futures ∧
      (insertEquities broker st eqs).1.options = st.1.options := by
  induction eqs with
  | nil => intro st; exact ⟨rfl, rfl⟩
  | cons e rest ih =>
    intro st
    have h := ih (insertEquityRow broker st e)
    simpa [insertEquities, List.foldl_cons, insertEquityRow] using h

/-- Rows present in `instruments` survive a futures-insertion step. -/
theorem iFR_instruments_sup (broker : String) (lk : String → String → Option Nat)
    (st : Tables × Nat) (f : ParsedFuture) :
    ∀ r ∈ st.1.instruments, r ∈ (insertFutureRow broker lk st f).1.instruments := by
  intro r hr
  unfold insertFutureRow
  cases hlk : lk f.underlying_exchange f.symbol with
  | none => exact hr
  | some uid => exact List.mem_append_left _ hr

/-- A futures row after a futures-insertion step is an old row or the
newly inserted one, whose `underlying_id` is the lookup hit. -/
theorem iFR_futures_src (broker : String) (lk : String → String → Option Nat)
    (st : Tables × Nat) (f : ParsedFuture) :
    ∀ g ∈ (insertFutureRow broker lk st f).1.futures,
      g ∈ st.1.futures ∨
        ∃ uid, lk f.underlying_exchange f.symbol = some uid ∧
          g.underlying_id = uid := by
  intro g hg
  unfold insertFutureRow at hg
  cases hlk : lk f.underlying_exchange f.symbol with
  | none => rw [hlk] at hg; exact .inl hg
  | some uid =>
    rw [hlk] at hg
    rcases List.mem_append.mp hg with hold | hnew
    · exact .inl hold
    · obtain rfl : g = (⟨st.2, uid, f.expiry.iso⟩ : FutRow) :=
        List.mem_singleton.mp hnew
      exact .inr ⟨uid, rfl, rfl⟩

/-- A futures-insertion step leaves the options table unchanged. -/
theorem iFR_options (broker : String) (lk : String → String → Option Nat)
    (st : Tables × Nat) (f : ParsedFuture) :
    (insertFutureRow broker lk st f).1.options = st.1.options := by
  unfold insertFutureRow
  cases hlk : lk f.underlying_exchange f.symbol <;> rfl

/-- A futures-insertion step inserts one row on a lookup hit and none
on a miss. -/
theorem iFR_futures_len (broker : String) (lk : String → String → Option Nat)
    (st : Tables × Nat) (f : ParsedFuture) :
    (insertFutureRow broker lk st f).1.futures.length =
      st.1.futures.length +
        (if (lk f.underlying_exchange f.symbol).isSome then 1 else 0) := by
  unfold insertFutureRow
  cases hlk : lk f.underlying_exchange f.symbol <;> simp

/-- Rows present in `instruments` survive an options-insertion step. -/
theorem iOR_instruments_sup (broker : String) (lk : String → String → Option Nat)
    (st : Tables × Nat) (o : ParsedOption) :
    ∀ r ∈ st.1.instruments, r ∈ (insertOptionRow broker lk st o).1.instruments := by
  intro r hr
  unfold insertOptionRow
  cases hlk : lk o.underlying_exchange o.symbol with
  | none => exact hr
  | some uid => exact List.mem_append_left _ hr

/-- An options row after an options-insertion step is an old row or the
newly inserted one, whose `underlying_id` is the lookup hit. -/
theorem iOR_options_src (broker : String) (lk : String → String → Option Nat)
    (st : Tables × Nat) (o : ParsedOption) :
    ∀ g ∈ (insertOptionRow broker lk st o).1.options,
      g ∈ st.1.options ∨
        ∃ uid, lk o.underlying_exchange o.symbol = some uid ∧
          g.underlying_id = uid := by
  intro g hg
  unfold insertOptionRow at hg
  cases hlk : lk o.underlying_exchange o.symbol with
  | none => rw [hlk] at hg; exact .inl hg
  | some uid =>
    rw [hlk] at hg
    rcases List.mem_append.mp hg with hold | hnew
    · exact .inl hold
    · obtain rfl : g = (⟨st.2, uid, o.expiry.iso, o.strike, o.option_type⟩ :
          OptRow) := List.mem_singleton.mp hnew
      exact .inr ⟨uid, rfl, rfl⟩

/-- An options-insertion step leaves the futures table unchanged. -/
theorem iOR_futures (broker : String) (lk : String → String → Option Nat)
    (st : Tables × Nat) (o : ParsedOption) :
    (insertOptionRow broker lk st o).1.futures = st.1.futures := by
  unfold insertOptionRow
  cases hlk : lk o.underlying_exchange o.symbol <;> rfl

/-- An options-insertion step inserts one row on a lookup hit and none
on a miss. -/
theorem iOR_options_len (broker : String) (lk : String → String → Option Nat)
    (st : Tables × Nat) (o : ParsedOption) :
    (insertOptionRow broker lk st o).1.options.length =
      st.1.options.length +
        (if (lk o.underlying_exchange o.symbol).isSome then 1 else 0) := by
  unfold insertOptionRow
  cases hlk : lk o.underlying_exchange o.symbol <;> simp

/-- Invariant of the futures-insertion fold: lookup hits keep pointing
at present instruments rows, no inserted future is orphaned, the
options table is untouched, and exactly the lookup hits are inserted
(misses are skipped without failing). -/
theorem foldFut_inv (broker : String) (lk : String → String → Option Nat)
    (fs : List ParsedFuture) :
    ∀ st : Tables × Nat,
      (∀ ex sym uid, lk ex sym = some uid →
        ∃ r ∈ st.1.instruments, r.id = uid) →
      (∀ f ∈ st.1.futures, ∃ r ∈ st.1.instruments, r.id = f.underlying_id) →
      (∀ ex sym uid, lk ex sym = some uid →
        ∃ r ∈ (fs.foldl (insertFutureRow broker lk) st).1.instruments,
          r.id = uid) ∧
      (∀ f ∈ (fs.foldl (insertFutureRow broker lk) st).1.futures,
        ∃ r ∈ (fs.foldl (insertFutureRow broker lk) st).1.instruments,
          r.id = f.underlying_id) ∧
      (fs.foldl (insertFutureRow broker lk) st).1.options = st.1.options ∧
      (fs.foldl (insertFutureRow broker lk) st).1.futures.length =
        st.1.futures.length +
          fs.countP (fun f => (lk f.underlying_exchange f.symbol).isSome) := by
  induction fs with
  | nil => intro st h1 h2; exact ⟨h1, h2, rfl, by simp⟩
  | cons f fs ih =>
    intro st h1 h2
    rw [List.foldl_cons]
    have h1s : ∀ ex sym uid, lk ex sym = some uid →
        ∃ r ∈ (insertFutureRow broker lk st f).1.instruments, r.id = uid := by
      intro ex sym uid hh
      obtain ⟨r, hr, hrid⟩ := h1 ex sym uid hh
      exact ⟨r, iFR_instruments_sup broker lk st f r hr, hrid⟩
    have h2s : ∀ g ∈ (insertFutureRow broker lk st f).1.futures,
        ∃ r ∈ (insertFutureRow broker lk st f).1.instruments,
          r.id = g.underlying_id := by
      intro g hg
      rcases iFR_futures_src broker lk st f g hg with hold | ⟨uid, hlk, hgid⟩
      · obtain ⟨r, hr, hrid⟩ := h2 g hold
        exact ⟨r, iFR_instruments_sup broker lk st f r hr, hrid⟩
      · obtain ⟨r, hr, hrid⟩ := h1 f.underlying_exchange f.symbol uid hlk
        exact ⟨r, iFR_instruments_sup broker lk st f r hr, by rw [hrid, hgid]⟩
    obtain ⟨g1, g2, g3, g4⟩ := ih (insertFutureRow broker lk st f) h1s h2s
    refine ⟨g1, g2, ?_, ?_⟩
    · rw [g3, iFR_options]
    · rw [g4, iFR_futures_len, List.countP_cons]
      cases hlk : lk f.underlying_exchange f.symbol <;> (simp [hlk]; try omega)

/-- Invariant of the options-insertion fold: mirrors `foldFut_inv`,
leaving the futures table untouched while instruments only grow. -/
theorem foldOpt_inv (broker : String) (lk : String → String → Option Nat)
    (os : List ParsedOption) :
    ∀ st : Tables × Nat,
      (∀ ex sym uid, lk ex sym = some uid →
        ∃ r ∈ st.1.instruments, r.id = uid) →
      (∀ o ∈ st.1.options, ∃ r ∈ st.1.instruments, r.id = o.underlying_id) →
      (∀ f ∈ st.1.futures, ∃ r ∈ st.1.instruments, r.id = f.underlying_id) →
      (∀ o ∈ (os.foldl (insertOptionRow broker lk) st).1.options,
        ∃ r ∈ (os.foldl (insertOptionRow broker lk) st).1.instruments,
          r.id = o.underlying_id) ∧
      (∀ f ∈ (os.foldl (insertOptionRow broker lk) st).1.futures,
        ∃ r ∈ (os.foldl (insertOptionRow broker lk) st).1.instruments,
          r.id = f.underlying_id) ∧
      (os.foldl (insertOptionRow broker lk) st).1.futures = st.1.futures ∧
      (os.foldl (insertOptionRow broker lk) st).1.options.length =
        st.1.options.length +
          os.countP (fun o => (lk o.underlying_exchange o.symbol).isSome) := by
  induction os with
  | nil => intro st h1 h2 h3; exact ⟨h2, h3, rfl, by simp⟩
  | cons o os ih =>
    intro st h1 h2 h3
    rw [List.foldl_cons]
    have h1s : ∀ ex sym uid, lk ex sym = some uid →
        ∃ r ∈ (insertOptionRow broker lk st o).1.instruments, r.id = uid := by
      intro ex sym uid hh
      obtain ⟨r, hr, hrid⟩ := h1 ex sym uid hh
      exact ⟨r, iOR_instruments_sup broker lk st o r hr, hrid⟩
    have h2s : ∀ g ∈ (insertOptionRow broker lk st o).1.options,
        ∃ r ∈ (insertOptionRow broker lk st o).1.instruments,
          r.id = g.underlying_id := by
      intro g hg
      rcases iOR_options_src broker lk st o g hg with hold | ⟨uid, hlk, hgid⟩
      · obtain ⟨r, hr, hrid⟩ := h2 g hold
        exact ⟨r, iOR_instruments_sup broker lk st o r hr, hrid⟩
      · obtain ⟨r, hr, hrid⟩ := h1 o.underlying_exchange o.symbol uid hlk
        exact ⟨r, iOR_instruments_sup broker lk st o r hr, by rw [hrid, hgid]⟩
    have h3s : ∀ g ∈ (insertOptionRow broker lk st o).1.futures,
        ∃ r ∈ (insertOptionRow broker lk st o).1.instruments,
          r.id = g.underlying_id := by
      intro g hg
      rw [iOR_futures] at hg
      obtain ⟨r, hr, hrid⟩ := h3 g hg
      exact ⟨r, iOR_instruments_sup broker lk st o r hr, hrid⟩
    obtain ⟨g1, g2, g3, g4⟩ := ih (insertOptionRow broker lk st o) h1s h2s h3s
    refine ⟨g1, g2, ?_, ?_⟩
    · rw [g3, iOR_futures]
    · rw [g4, iOR_options_len, List.countP_cons]
      cases hlk : lk o.underlying_exchange o.symbol <;> (simp [hlk]; try omega)

/-- C2: after a refresh runs to completion, every futures and options
row references an existing instruments row through `underlying_id`
(zero orphans), and the number of inserted derivative rows is exactly
the number of parsed rows whose `(underlying_exchange, symbol)` hits
the in-memory lookup — misses are skipped without aborting the
refresh. -/
theorem refresh_zero_orphans (broker today : String) (pre : Tables)
    (p : ParsedInstruments) :
    (∀ f ∈ (refreshResult broker today pre p).futures,
      ∃ r ∈ (refreshResult broker today pre p).instruments,
        r.id = f.underlying_id) ∧
    (∀ o ∈ (refreshResult broker today pre p).options,
      ∃ r ∈ (refreshResult broker today pre p).instruments,
        r.id = o.underlying_id) ∧
    (refreshResult broker today pre p).futures.length =
      p.futures.countP (fun f =>
        (underlyingLookup (tablesAfterCash broker (truncateData pre) p).1
          f.underlying_exchange f.symbol).isSome) ∧
    (refreshResult broker today pre p).options.length =
      p.options.countP (fun o =>
        (underlyingLookup (tablesAfterCash broker (truncateData pre) p).1
          o.underlying_exchange o.symbol).isSome) := by
  have hcash : (tablesAfterCash broker (truncateData pre) p).1.futures = [] ∧
      (tablesAfterCash broker (truncateData pre) p).1.options = [] := by
    unfold tablesAfterCash
    obtain ⟨he1, he2⟩ := insertEquities_fo broker p.equities
      (insertIndices broker (truncateData pre, maxInstrumentId (truncateData pre) + 1)
        p.indices)
    obtain ⟨hi1, hi2⟩ := insertIndices_fo broker p.indices
      (truncateData pre, maxInstrumentId (truncateData pre) + 1)
    constructor
    · rw [he1, hi1]
      rfl
    · rw [he2, hi2]
      rfl
  obtain ⟨f1, f2, f3, f4⟩ := foldFut_inv broker
    (underlyingLookup (tablesAfterCash broker (truncateData pre) p).1) p.futures
    (tablesAfterCash broker (truncateData pre) p)
    (fun ex sym uid h => underlyingLookup_mem _ ex sym uid h)
    (by rw [hcash.1]; intro f hf; exact absurd hf (List.not_mem_nil f))
  obtain ⟨o1, o2, o3, o4⟩ := foldOpt_inv broker
    (underlyingLookup (tablesAfterCash broker (truncateData pre) p).1) p.options
    (p.futures.foldl (insertFutureRow broker
      (underlyingLookup (tablesAfterCash broker (truncateData pre) p).1))
      (tablesAfterCash broker (truncateData pre) p))
    f1 (by rw [f3, hcash.2]; intro o ho; exact absurd ho (List.not_mem_nil o)) f2
  have hresult : refreshResult broker today pre p =
      setLastUpdated today ((p.options.foldl (insertOptionRow broker
        (underlyingLookup (tablesAfterCash broker (truncateData pre) p).1))
        (p.futures.foldl (insertFutureRow broker
          (underlyingLookup (tablesAfterCash broker (truncateData pre) p).1))
          (tablesAfterCash broker (truncateData pre) p))).1) := by
    rfl
  have hmeta : ∀ t : Tables, (setLastUpdated today t).futures = t.futures ∧
      (setLastUpdated today t).options = t.options ∧
      (setLastUpdated today t).instruments = t.instruments := by
    intro t
    exact ⟨rfl, rfl, rfl⟩
  rw [hresult]
  obtain ⟨hm1, hm2, hm3⟩ := hmeta ((p.options.foldl (insertOptionRow broker
    (underlyingLookup (tablesAfterCash broker (truncateData pre) p).1))
    (p.futures.foldl (insertFutureRow broker
      (underlyingLookup (tablesAfterCash broker (truncateData pre) p).1))
      (tablesAfterCash broker (truncateData pre) p))).1)
  rw [hm1, hm2, hm3]
  refine ⟨o2, o1, ?_, ?_⟩
  · rw [o3, f4, hcash.1]
    simp
  · rw [o4, f3, hcash.2]
    simp

/-- Concrete check of C2 on `sampleParsed`, whose second future (GHOST)
misses the lookup: only the hit row is inserted, and the inserted
future's `underlying_id` names an existing instruments row. -/
theorem refresh_zero_orphans_check :
    ((refreshResult "zerodha" "2026-10-12" {} sampleParsed).futures.length = 1) ∧
    ((refreshResult "zerodha" "2026-10-12" {} sampleParsed).futures =
      [⟨2, 1, "2026-02-26"⟩]) ∧
    (∃ r ∈ (refreshResult "zerodha" "2026-10-12" {} sampleParsed).instruments,
      r.id = (⟨2, 1, "2026-02-26"⟩ : FutRow).underlying_id) := by
  refine ⟨?_, by rfl, ?_⟩
  · have h := (refresh_zero_orphans "zerodha" "2026-10-12" {} sampleParsed).2.2.1
    rw [h]
    rfl
  · exact (refresh_zero_orphans "zerodha" "2026-10-12" {} sampleParsed).1
      ⟨2, 1, "2026-02-26"⟩ (by decide)

/-- C1: refresh is not atomic.  `truncate_all` commits the deletions in
their own transaction before any insert: with one pre-existing
instrument row and a refresh of an empty parse that is interrupted
right after `truncate_all`'s commit (e.g. the process crashes or a
later statement raises), the committed store is the truncated one —
different from the pre-refresh state, different from the completed
post-refresh state, with the instruments table emptied and the stale
`last_updated` marker still in place. -/
theorem refresh_truncate_commits_early :
    ((refreshCommits "zerodha" "2026-10-12"
        { instruments := [⟨1, "NSE", "RELIANCE", "NSE", some "RELIANCE", 1, ⟨5, 100⟩⟩]
          equities := [⟨1, none⟩]
          broker_tokens := [⟨1, "zerodha", "738561", "RELIANCE"⟩]
          meta := [("last_updated", "2026-10-11")] } {}).get? 1 =
      some (truncateData
        { instruments := [⟨1, "NSE", "RELIANCE", "NSE", some "RELIANCE", 1, ⟨5, 100⟩⟩]
          equities := [⟨1, none⟩]
          broker_tokens := [⟨1, "zerodha", "738561", "RELIANCE"⟩]
          meta := [("last_updated", "2026-10-11")] })) ∧
    truncateData
        { instruments := [⟨1, "NSE", "RELIANCE", "NSE", some "RELIANCE", 1, ⟨5, 100⟩⟩]
          equities := [⟨1, none⟩]
          broker_tokens := [⟨1, "zerodha", "738561", "RELIANCE"⟩]
          meta := [("last_updated", "2026-10-11")] } ≠
      { instruments := [⟨1, "NSE", "RELIANCE", "NSE", some "RELIANCE", 1, ⟨5, 100⟩⟩]
        equities := [⟨1, none⟩]
        broker_tokens := [⟨1, "zerodha", "738561", "RELIANCE"⟩]
        meta := [("last_updated", "2026-10-11")] } ∧
    truncateData
        { instruments := [⟨1, "NSE", "RELIANCE", "NSE", some "RELIANCE", 1, ⟨5, 100⟩⟩]
          equities := [⟨1, none⟩]
          broker_tokens := [⟨1, "zerodha", "738561", "RELIANCE"⟩]
          meta := [("last_updated", "2026-10-11")] } ≠
      refreshResult "zerodha" "2026-10-12"
        { instruments := [⟨1, "NSE", "RELIANCE", "NSE", some "RELIANCE", 1, ⟨5, 100⟩⟩]
          equities := [⟨1, none⟩]
          broker_tokens := [⟨1, "zerodha", "738561", "RELIANCE"⟩]
          meta := [("last_updated", "2026-10-11")] } {} ∧
    (truncateData
        { instruments := [⟨1, "NSE", "RELIANCE", "NSE", some "RELIANCE", 1, ⟨5, 100⟩⟩]
          equities := [⟨1, none⟩]
          broker_tokens := [⟨1, "zerodha", "738561", "RELIANCE"⟩]
          meta := [("last_updated", "2026-10-11")] }).instruments = [] ∧
    metaGet (truncateData
        { instruments := [⟨1, "NSE", "RELIANCE", "NSE", some "RELIANCE", 1, ⟨5, 100⟩⟩]
          equities := [⟨1, none⟩]
          broker_tokens := [⟨1, "zerodha", "738561", "RELIANCE"⟩]
          meta := [("last_updated", "2026-10-11")] }) "last_updated" =
      some "2026-10-11" := by
  refine ⟨rfl, ?_, ?_, rfl, rfl⟩
  · intro h
    have := congrArg (fun t => t.instruments.length) h
    simp [truncateData] at this
  · intro h
    have := congrArg (fun t => metaGet t "last_updated") h
    rw [show refreshResult "zerodha" "2026-10-12"
        { instruments := [⟨1, "NSE", "RELIANCE", "NSE", some "RELIANCE", 1, ⟨5, 100⟩⟩]
          equities := [⟨1, none⟩]
          broker_tokens := [⟨1, "zerodha", "738561", "RELIANCE"⟩]
          meta := [("last_updated", "2026-10-11")] } {} =
      setLastUpdated "2026-10-12" (insertAll "zerodha" (truncateData
        { instruments := [⟨1, "NSE", "RELIANCE", "NSE", some "RELIANCE", 1, ⟨5, 100⟩⟩]
          equities := [⟨1, none⟩]
          broker_tokens := [⟨1, "zerodha", "738561", "RELIANCE"⟩]
          meta := [("last_updated", "2026-10-11")] }) {}) from rfl] at this
    simp [truncateData, metaGet, setLastUpdated, metaReplace, insertAll,
      tablesAfterCash, insertIndices, insertEquities] at this

end TTC
